import Mathlib

/-!
Shallow embedding of the k2db storage core (buffer pool manager, clock
replacer, linear-probing hash table pages, tuple serialization) and proofs
about it.  Definitions are translated from the Rust sources under
`src/dbms`; where a definition models code that is not present in the
source tree (the `Page` type used by the buffer pool manager), its doc
comment says so explicitly.
-/

namespace K2db

/-! ## Bytes and big-endian encoding

Rust's `u8` is modelled as `Fin 256`, byte sequences as `List (Fin 256)`.
`beBytes w v` is `v.to_be_bytes()` for a `w`-byte unsigned integer and
`fromBeNat` is `from_be_bytes` (producing the numeric value). -/

def Byte : Type := Fin 256

instance : DecidableEq Byte := instDecidableEqFin 256

instance : OfNat Byte 0 := ⟨(0 : Fin 256)⟩
instance : OfNat Byte 1 := ⟨(1 : Fin 256)⟩

/-- Big-endian byte encoding of a natural number into `w` bytes,
mirroring Rust's `to_be_bytes` on a `w`-byte unsigned integer. -/
def beBytes : Nat → Nat → List Byte
  | 0, _ => []
  | w + 1, v => beBytes w (v / 256) ++ [⟨v % 256, Nat.mod_lt _ (by omega)⟩]

/-- Big-endian byte decoding, mirroring Rust's `from_be_bytes`. -/
def fromBeNat (bs : List Byte) : Nat :=
  bs.foldl (fun a b => a * 256 + b.val) 0

theorem beBytes_length (w v : Nat) : (beBytes w v).length = w := by
  induction w generalizing v with
  | zero => rfl
  | succ w ih => simp [beBytes, ih]

theorem fromBeNat_aux (bs : List Byte) (a : Nat) :
    bs.foldl (fun a b => a * 256 + b.val) a =
      a * 256 ^ bs.length + fromBeNat bs := by
  induction bs generalizing a with
  | nil => simp [fromBeNat]
  | cons x xs ih =>
    have h0 : fromBeNat (x :: xs) = xs.foldl (fun a b => a * 256 + b.val) x.val := by
      simp [fromBeNat]
    rw [List.foldl_cons, ih, h0, ih x.val, List.length_cons]
    ring

theorem fromBeNat_append (xs ys : List Byte) :
    fromBeNat (xs ++ ys) = fromBeNat xs * 256 ^ ys.length + fromBeNat ys := by
  unfold fromBeNat
  rw [List.foldl_append, fromBeNat_aux]
  rfl

theorem fromBeNat_lt (bs : List Byte) : fromBeNat bs < 256 ^ bs.length := by
  induction bs using List.reverseRecOn with
  | nil => simp [fromBeNat]
  | append_singleton xs x ih =>
    rw [fromBeNat_append]
    simp only [List.length_append, List.length_singleton]
    have hx : fromBeNat [x] < 256 := by
      simp [fromBeNat]
    have : fromBeNat xs * 256 ^ 1 + fromBeNat [x] <
        (fromBeNat xs + 1) * 256 := by
      simp only [pow_one]
      omega
    calc fromBeNat xs * 256 ^ 1 + fromBeNat [x]
        < (fromBeNat xs + 1) * 256 := this
      _ ≤ 256 ^ xs.length * 256 := by
          have := ih
          exact Nat.mul_le_mul_right 256 (by omega)
      _ = 256 ^ (xs.length + 1) := by ring

theorem fromBeNat_beBytes (w v : Nat) (h : v < 256 ^ w) :
    fromBeNat (beBytes w v) = v := by
  induction w generalizing v with
  | zero =>
    simp only [Nat.pow_zero, Nat.lt_one_iff] at h
    simp [beBytes, fromBeNat, h]
  | succ w ih =>
    rw [beBytes, fromBeNat_append]
    have hdiv : v / 256 < 256 ^ w := by
      rw [Nat.div_lt_iff_lt_mul (by omega)]
      calc v < 256 ^ (w + 1) := h
        _ = 256 ^ w * 256 := by ring
    rw [ih _ hdiv]
    simp only [List.length_singleton, pow_one]
    have : fromBeNat [⟨v % 256, Nat.mod_lt _ (by omega)⟩] = v % 256 := by
      simp [fromBeNat]
    rw [this]
    omega

/-! ## Tuple serialization (`src/dbms/storage/serialize.rs`)

The supported `BytesSerialize` implementations form a closed universe:
the primitives and right-nested pairs.  Fixed-width integers and floats
are represented by their bit patterns (`Fin (256 ^ width)`): the Rust
code serializes them via `to_be_bytes` / `from_be_bytes` on exactly
those bit patterns. -/

inductive SerializeError
  | InvalidSize
  | InvalidValue
  deriving DecidableEq, Repr

/-- Result of a deserialization: `ok`, a typed error, or a Rust panic
(`bool::from_bytes` indexes `bytes[0]`, which panics on empty input). -/
inductive SerResult (α : Type)
  | ok (a : α)
  | err (e : SerializeError)
  | panicked
  deriving DecidableEq

/-- The closed universe of `BytesSerialize` implementations in
`serialize.rs`: unit, bool, the unsigned and signed integers, the two
float widths, and right-nested pairs. -/
inductive SType
  | unit
  | bool
  | u8 | u16 | u32 | u64 | u128
  | i8 | i16 | i32 | i64 | i128
  | f32 | f64
  | pair (h t : SType)
  deriving DecidableEq

/-- `serialized_size()` for each supported type: `mem::size_of` for the
primitives (the default trait implementation) and the sum of the
components for a pair (the overriding implementation). -/
def SType.serializedSize : SType → Nat
  | .unit => 0
  | .bool => 1
  | .u8 => 1
  | .u16 => 2
  | .u32 => 4
  | .u64 => 8
  | .u128 => 16
  | .i8 => 1
  | .i16 => 2
  | .i32 => 4
  | .i64 => 8
  | .i128 => 16
  | .f32 => 4
  | .f64 => 8
  | .pair h t => h.serializedSize + t.serializedSize

/-- The Lean type of values of each supported serializable type.
Integers and floats are carried as bit patterns of the right width. -/
def SType.Val : SType → Type
  | .unit => Unit
  | .bool => Bool
  | .u8 => Fin (256 ^ 1)
  | .u16 => Fin (256 ^ 2)
  | .u32 => Fin (256 ^ 4)
  | .u64 => Fin (256 ^ 8)
  | .u128 => Fin (256 ^ 16)
  | .i8 => Fin (256 ^ 1)
  | .i16 => Fin (256 ^ 2)
  | .i32 => Fin (256 ^ 4)
  | .i64 => Fin (256 ^ 8)
  | .i128 => Fin (256 ^ 16)
  | .f32 => Fin (256 ^ 4)
  | .f64 => Fin (256 ^ 8)
  | .pair h t => h.Val × t.Val

instance instDecidableEqSTypeVal : (t : SType) → DecidableEq t.Val
  | .unit => inferInstanceAs (DecidableEq Unit)
  | .bool => inferInstanceAs (DecidableEq Bool)
  | .u8 => inferInstanceAs (DecidableEq (Fin _))
  | .u16 => inferInstanceAs (DecidableEq (Fin _))
  | .u32 => inferInstanceAs (DecidableEq (Fin _))
  | .u64 => inferInstanceAs (DecidableEq (Fin _))
  | .u128 => inferInstanceAs (DecidableEq (Fin _))
  | .i8 => inferInstanceAs (DecidableEq (Fin _))
  | .i16 => inferInstanceAs (DecidableEq (Fin _))
  | .i32 => inferInstanceAs (DecidableEq (Fin _))
  | .i64 => inferInstanceAs (DecidableEq (Fin _))
  | .i128 => inferInstanceAs (DecidableEq (Fin _))
  | .f32 => inferInstanceAs (DecidableEq (Fin _))
  | .f64 => inferInstanceAs (DecidableEq (Fin _))
  | .pair h t =>
    have : DecidableEq h.Val := instDecidableEqSTypeVal h
    have : DecidableEq t.Val := instDecidableEqSTypeVal t
    inferInstanceAs (DecidableEq (_ × _))

/-- `to_bytes` for every supported type.  Pairs concatenate the head's
encoding and the tail's; `bool` encodes `true` as `[1]`, `false` as
`[0]`; `unit` encodes to the empty sequence; the numeric types encode
their bit patterns big-endian. -/
def toBytes : (t : SType) → t.Val → List Byte
  | .unit, _ => []
  | .bool, b =>
    match b with
    | true => [(1 : Byte)]
    | false => [(0 : Byte)]
  | .u8, v => beBytes 1 v.val
  | .u16, v => beBytes 2 v.val
  | .u32, v => beBytes 4 v.val
  | .u64, v => beBytes 8 v.val
  | .u128, v => beBytes 16 v.val
  | .i8, v => beBytes 1 v.val
  | .i16, v => beBytes 2 v.val
  | .i32, v => beBytes 4 v.val
  | .i64, v => beBytes 8 v.val
  | .i128, v => beBytes 16 v.val
  | .f32, v => beBytes 4 v.val
  | .f64, v => beBytes 8 v.val
  | .pair h t, x => toBytes h x.1 ++ toBytes t x.2

/-- `from_bytes` for the fixed-width numeric types: `bytes.try_into()`
fails with `InvalidSize` unless the length is exactly the width, then
`from_be_bytes` reconstructs the bit pattern. -/
def fixedFromBytes (w : Nat) (bs : List Byte) : SerResult (Fin (256 ^ w)) :=
  if h : bs.length = w then
    .ok ⟨fromBeNat bs, h ▸ fromBeNat_lt bs⟩
  else
    .err .InvalidSize

/-- `from_bytes` for every supported type, translated from
`serialize.rs`:
* `()` accepts any input (`fn from_bytes(_: Vec<u8>)` ignores it);
* `bool` matches on `bytes[0]` only — panics on empty input, and decides
  by the first byte regardless of the input length;
* the numeric types fail with `InvalidSize` on any wrong-length input;
* `(H, T)` checks the total length, then splits and recurses. -/
def fromBytes : (t : SType) → List Byte → SerResult t.Val
  | .unit, _ => .ok ()
  | .bool, bs =>
    match bs with
    | [] => .panicked
    | b :: _ =>
      if b.val = 0 then .ok false
      else if b.val = 1 then .ok true
      else .err .InvalidValue
  | .u8, bs => fixedFromBytes 1 bs
  | .u16, bs => fixedFromBytes 2 bs
  | .u32, bs => fixedFromBytes 4 bs
  | .u64, bs => fixedFromBytes 8 bs
  | .u128, bs => fixedFromBytes 16 bs
  | .i8, bs => fixedFromBytes 1 bs
  | .i16, bs => fixedFromBytes 2 bs
  | .i32, bs => fixedFromBytes 4 bs
  | .i64, bs => fixedFromBytes 8 bs
  | .i128, bs => fixedFromBytes 16 bs
  | .f32, bs => fixedFromBytes 4 bs
  | .f64, bs => fixedFromBytes 8 bs
  | .pair h t, bs =>
    if bs.length = h.serializedSize + t.serializedSize then
      match fromBytes h (bs.take h.serializedSize) with
      | .ok a =>
        match fromBytes t ((bs.drop h.serializedSize).take t.serializedSize) with
        | .ok b => .ok (a, b)
        | .err e => .err e
        | .panicked => .panicked
      | .err e => .err e
      | .panicked => .panicked
    else
      .err .InvalidSize

theorem toBytes_length : ∀ (t : SType) (x : t.Val),
    (toBytes t x).length = t.serializedSize := by
  intro t
  induction t with
  | pair h t ihh iht =>
    intro x
    simp [toBytes, SType.serializedSize, ihh, iht]
  | bool =>
    intro x
    cases x <;> simp [toBytes, SType.serializedSize]
  | _ =>
    intro x
    simp [toBytes, SType.serializedSize, beBytes_length]

theorem fixedFromBytes_beBytes (w : Nat) (v : Fin (256 ^ w)) :
    fixedFromBytes w (beBytes w v.val) = .ok v := by
  unfold fixedFromBytes
  rw [dif_pos (beBytes_length w v.val)]
  congr 1
  exact Fin.ext (fromBeNat_beBytes w v.val v.isLt)

/-- Round trip for every supported type: `from_bytes(to_bytes(x)) = x`. -/
theorem fromBytes_toBytes : ∀ (t : SType) (x : t.Val),
    fromBytes t (toBytes t x) = .ok x := by
  intro t
  induction t with
  | unit => intro x; rfl
  | bool =>
    intro x
    cases x <;> simp [toBytes, fromBytes]
  | pair h t ihh iht =>
    intro x
    have hlen : (toBytes h x.1 ++ toBytes t x.2).length =
        h.serializedSize + t.serializedSize := by
      simp [toBytes_length]
    have htake : (toBytes h x.1 ++ toBytes t x.2).take h.serializedSize =
        toBytes h x.1 := by
      rw [List.take_append_of_le_length (by simp [toBytes_length])]
      simp [toBytes_length h x.1]
    have hdrop : (toBytes h x.1 ++ toBytes t x.2).drop h.serializedSize =
        toBytes t x.2 := by
      rw [List.drop_append_of_le_length (by simp [toBytes_length])]
      simp [toBytes_length h x.1]
    show fromBytes (.pair h t) (toBytes h x.1 ++ toBytes t x.2) = .ok x
    rw [fromBytes, if_pos hlen, htake, hdrop,
      List.take_of_length_le (le_of_eq (toBytes_length t x.2)), ihh x.1, iht x.2]
    rfl
  | _ =>
    intro x
    simpa [toBytes, fromBytes] using fixedFromBytes_beBytes _ x

/-! ## Block page layout (`src/dbms/storage/page/hash_table/util.rs`) -/

def PAGE_SIZE : Nat := 4096

inductive PageLayoutError
  | BadValueSize
  deriving DecidableEq, Repr

structure PageLayout where
  occupancy_array_start : Nat
  readability_array_start : Nat
  value_array_start : Nat
  max_values : Nat
  deriving DecidableEq, Repr

/-- The closure `bit_array_bytes` in `calculate_block_page_layout`: size
of a bit array in bytes, rounded up to the nearest whole byte. -/
def bitArrayBytes (num_values : Nat) : Nat := (num_values + 8 - 1) / 8

/-- The condition under which `num_values` entries (plus the two bitmap
arrays) fit into one page; the `while` loop in
`calculate_block_page_layout` decrements until this holds. -/
def layoutFits (entry_size num_values : Nat) : Prop :=
  bitArrayBytes num_values * 2 + num_values * entry_size ≤ PAGE_SIZE

instance (entry_size num_values : Nat) :
    Decidable (layoutFits entry_size num_values) :=
  inferInstanceAs (Decidable (_ ≤ _))

/-- The `while bit_array_bytes(max_values) * 2 + max_values * entry_size >
PAGE_SIZE { max_values -= 1 }` loop: decrement until the layout fits
(zero always fits, so the loop terminates). -/
def shrinkMaxValues (entry_size : Nat) : Nat → Nat
  | 0 => 0
  | m + 1 =>
    if bitArrayBytes (m + 1) * 2 + (m + 1) * entry_size > PAGE_SIZE then
      shrinkMaxValues entry_size m
    else
      m + 1

/-- `calculate_block_page_layout` from `util.rs`.  Note the initial
estimate keeps the source's `(PAGE_SIZE - 2) / (entry_size + 1 / byte_size)`
with integer division (`1 / 8 = 0`). -/
def calculate_block_page_layout (entry_size : Nat) :
    Except PageLayoutError PageLayout :=
  if entry_size = 0 then
    .error .BadValueSize
  else
    let max_values := shrinkMaxValues entry_size ((PAGE_SIZE - 2) / (entry_size + 1 / 8))
    if max_values = 0 then
      .error .BadValueSize
    else
      let occupancy_array_bytes := bitArrayBytes max_values
      let readability_array_bytes := bitArrayBytes max_values
      .ok { occupancy_array_start := 0,
            readability_array_start := occupancy_array_bytes,
            value_array_start := occupancy_array_bytes + readability_array_bytes,
            max_values := max_values }

theorem shrinkMaxValues_fits (entry_size m : Nat) :
    layoutFits entry_size (shrinkMaxValues entry_size m) := by
  induction m with
  | zero =>
    simp [shrinkMaxValues, layoutFits, bitArrayBytes, PAGE_SIZE]
  | succ m ih =>
    rw [shrinkMaxValues]
    split
    · exact ih
    · simp only [layoutFits]
      omega

theorem shrinkMaxValues_ge (entry_size m N : Nat) (hN : N ≤ m)
    (hfit : layoutFits entry_size N) : N ≤ shrinkMaxValues entry_size m := by
  induction m with
  | zero => simpa [shrinkMaxValues] using hN
  | succ m ih =>
    rw [shrinkMaxValues]
    split
    · rename_i hgt
      rcases Nat.lt_or_ge N (m + 1) with h | h
      · exact ih (by omega)
      · exfalso
        have : N = m + 1 := by omega
        subst this
        exact absurd hfit (by simpa [layoutFits] using hgt)
    · exact hN

theorem layoutFits_le_estimate (entry_size N : Nat) (he : entry_size ≠ 0)
    (hN : 1 ≤ N) (hfit : layoutFits entry_size N) :
    N ≤ (PAGE_SIZE - 2) / (entry_size + 1 / 8) := by
  have hbit : 1 ≤ bitArrayBytes N := by
    unfold bitArrayBytes
    omega
  have hmul : N * entry_size ≤ PAGE_SIZE - 2 := by
    unfold layoutFits at hfit
    omega
  have h8 : (1 : Nat) / 8 = 0 := by decide
  rw [h8, Nat.add_zero]
  rw [Nat.le_div_iff_mul_le (by omega)]
  exact hmul

/-- C9: `calculate_block_page_layout(entry_size)` succeeds with
`max_values` the greatest `N` such that
`2·⌈N/8⌉ + N·entry_size ≤ PAGE_SIZE` whenever `entry_size ≥ 1` and such
an `N ≥ 1` exists, and fails with `BadValueSize` exactly when
`entry_size = 0` or no such `N ≥ 1` exists. -/
theorem calculate_block_page_layout_spec (entry_size : Nat) :
    (entry_size ≠ 0 → (∃ N, 1 ≤ N ∧ layoutFits entry_size N) →
      ∃ L, calculate_block_page_layout entry_size = .ok L ∧
        1 ≤ L.max_values ∧ layoutFits entry_size L.max_values ∧
        ∀ N, layoutFits entry_size N → N ≤ L.max_values) ∧
    (calculate_block_page_layout entry_size = .error .BadValueSize ↔
      (entry_size = 0 ∨ ∀ N, 1 ≤ N → ¬ layoutFits entry_size N)) := by
  have hK : ∀ N, layoutFits entry_size N → entry_size ≠ 0 → 1 ≤ N →
      N ≤ shrinkMaxValues entry_size ((PAGE_SIZE - 2) / (entry_size + 1 / 8)) :=
    fun N hfit he h1 =>
      shrinkMaxValues_ge entry_size _ N
        (layoutFits_le_estimate entry_size N he h1 hfit) hfit
  constructor
  · intro he hex
    obtain ⟨N, hN1, hNfit⟩ := hex
    have hge := hK N hNfit he hN1
    have hpos : shrinkMaxValues entry_size
        ((PAGE_SIZE - 2) / (entry_size + 1 / 8)) ≠ 0 := by omega
    refine ⟨{ occupancy_array_start := 0,
              readability_array_start := bitArrayBytes (shrinkMaxValues entry_size
                ((PAGE_SIZE - 2) / (entry_size + 1 / 8))),
              value_array_start := bitArrayBytes (shrinkMaxValues entry_size
                  ((PAGE_SIZE - 2) / (entry_size + 1 / 8))) +
                bitArrayBytes (shrinkMaxValues entry_size
                  ((PAGE_SIZE - 2) / (entry_size + 1 / 8))),
              max_values := shrinkMaxValues entry_size
                ((PAGE_SIZE - 2) / (entry_size + 1 / 8)) },
            ?_, le_trans hN1 hge, shrinkMaxValues_fits entry_size _, ?_⟩
    · unfold calculate_block_page_layout
      rw [if_neg he, if_neg hpos]
    · intro M hM
      rcases Nat.eq_zero_or_pos M with h | h
      · omega
      · exact hK M hM he h
  · constructor
    · intro herr
      by_cases he : entry_size = 0
      · exact Or.inl he
      refine Or.inr fun N hN1 hNfit => ?_
      have hge := hK N hNfit he hN1
      unfold calculate_block_page_layout at herr
      rw [if_neg he] at herr
      by_cases hz : shrinkMaxValues entry_size
          ((PAGE_SIZE - 2) / (entry_size + 1 / 8)) = 0
      · omega
      · rw [if_neg hz] at herr
        exact absurd herr (by simp)
    · intro h
      rcases h with he | hnone
      · unfold calculate_block_page_layout
        rw [if_pos he]
      · unfold calculate_block_page_layout
        by_cases he : entry_size = 0
        · rw [if_pos he]
        · rw [if_neg he]
          have hz : shrinkMaxValues entry_size
              ((PAGE_SIZE - 2) / (entry_size + 1 / 8)) = 0 := by
            by_contra hz
            exact hnone
              (shrinkMaxValues entry_size ((PAGE_SIZE - 2) / (entry_size + 1 / 8)))
              (by omega) (shrinkMaxValues_fits entry_size _)
          rw [if_pos hz]

/-! ## Header and header-extension pages
(`src/dbms/storage/page/hash_table/header.rs`, `header_extension.rs`)

Page contents are modelled as a function from byte offsets to bytes;
`write_data`/`read_data` are the slice operations of the underlying
page.  `PAGE_ENTRY_SIZE_BYTES = 4` (u32 entries, stored big-endian). -/

def PageBytes : Type := Nat → Byte

/-- `IPage::write_data(offset, data)`: overwrite `data.len()` bytes
starting at `offset`. -/
def writeData (page : PageBytes) (offset : Nat) (bytes : List Byte) : PageBytes :=
  fun i =>
    if offset ≤ i ∧ i < offset + bytes.length then bytes.getD (i - offset) 0
    else page i

/-- `IPage::read_data(offset, size)`: read `len` bytes starting at
`offset`. -/
def readData (page : PageBytes) (offset len : Nat) : List Byte :=
  (List.range len).map (fun j => page (offset + j))

/-- `NULL_PAGE_ID = PageId::MAX = u32::MAX`, the sentinel for
"no page". -/
def NULL_PAGE_ID : Nat := 4294967295

/-- `read_single_at_offset`: read 4 bytes and decode them as a
big-endian u32. -/
def readSingleAtOffset (page : PageBytes) (offset : Nat) : Nat :=
  fromBeNat (readData page offset 4)

/-- `write_single_at_offset`: encode a u32 big-endian and write its 4
bytes. -/
def writeSingleAtOffset (page : PageBytes) (offset value : Nat) : PageBytes :=
  writeData page offset (beBytes 4 value)

/-- Header page: `BLOCK_PAGE_IDS_START_OFFSET_BYTES = 5 * 4 = 20`. -/
def headerBlockPageIdsStart : Nat := 20

/-- Extension page: `BLOCK_PAGE_IDS_START_OFFSET_BYTES = 3 * 4 = 12`. -/
def extensionBlockPageIdsStart : Nat := 12

/-- `get_block_page_id` on a header page: reads the u32 at the
position's offset and maps the sentinel to `None`. -/
def headerGetBlockPageId (page : PageBytes) (position : Nat) : Option Nat :=
  if readSingleAtOffset page (headerBlockPageIdsStart + position * 4) = NULL_PAGE_ID
  then none
  else some (readSingleAtOffset page (headerBlockPageIdsStart + position * 4))

/-- `set_block_page_id` on a header page: writes the given id, or the
sentinel for `None`. -/
def headerSetBlockPageId (page : PageBytes) (position : Nat)
    (page_id : Option Nat) : PageBytes :=
  match page_id with
  | some p => writeSingleAtOffset page (headerBlockPageIdsStart + position * 4) p
  | none =>
    writeSingleAtOffset page (headerBlockPageIdsStart + position * 4) NULL_PAGE_ID

/-- `get_block_page_id` on a header-extension page. -/
def extensionGetBlockPageId (page : PageBytes) (position : Nat) : Option Nat :=
  if readSingleAtOffset page (extensionBlockPageIdsStart + position * 4) = NULL_PAGE_ID
  then none
  else some (readSingleAtOffset page (extensionBlockPageIdsStart + position * 4))

/-- `set_block_page_id` on a header-extension page. -/
def extensionSetBlockPageId (page : PageBytes) (position : Nat)
    (page_id : Option Nat) : PageBytes :=
  match page_id with
  | some p => writeSingleAtOffset page (extensionBlockPageIdsStart + position * 4) p
  | none =>
    writeSingleAtOffset page (extensionBlockPageIdsStart + position * 4) NULL_PAGE_ID

theorem readData_writeData (page : PageBytes) (offset : Nat) (bytes : List Byte) :
    readData (writeData page offset bytes) offset bytes.length = bytes := by
  apply List.ext_getElem
  · simp [readData]
  · intro i h1 h2
    simp only [readData, writeData, List.getElem_map, List.getElem_range]
    rw [if_pos (by constructor <;> omega)]
    simp only [Nat.add_sub_cancel_left]
    exact List.getD_eq_getElem bytes 0 h2

theorem readSingle_writeSingle (page : PageBytes) (offset value : Nat)
    (h : value < 256 ^ 4) :
    readSingleAtOffset (writeSingleAtOffset page offset value) offset = value := by
  unfold readSingleAtOffset writeSingleAtOffset
  have hrd := readData_writeData page offset (beBytes 4 value)
  rw [beBytes_length] at hrd
  rw [hrd, fromBeNat_beBytes 4 value h]

theorem NULL_PAGE_ID_lt : NULL_PAGE_ID < 256 ^ 4 := by decide

/-! ## Claim theorems: serialization, layout, header pages -/

/-- C8: for every value of a supported primitive type and every
right-nested pair of supported types, `from_bytes(to_bytes(x)) = x`,
and a pair's encoding concatenates the head's encoding with the
tail's.  (Integers and floats are represented by their bit patterns,
which is exactly what `to_be_bytes`/`from_be_bytes` transport.) -/
theorem C8_serialization_round_trip :
    (∀ (t : SType) (x : t.Val), fromBytes t (toBytes t x) = .ok x) ∧
    (∀ (h t : SType) (a : h.Val) (b : t.Val),
      toBytes (.pair h t) (a, b) = toBytes h a ++ toBytes t b) :=
  ⟨fromBytes_toBytes, fun _ _ _ _ => rfl⟩

/-- C4 (counterexample): the claim "`from_bytes(b)` fails with
`InvalidSize` whenever `b.length ≠ serialized_size()`" is false for the
unit type and for `bool`: `()::from_bytes` accepts any input (here a
1-byte input where `serialized_size() = 0`), `bool::from_bytes([0, 0])`
succeeds on a 2-byte input where `serialized_size() = 1`, and
`bool::from_bytes([])` panics (index out of bounds on `bytes[0]`)
rather than returning `InvalidSize`. -/
theorem C4_counterexample :
    fromBytes .unit [(0 : Byte)] = .ok () ∧
    fromBytes .bool [(0 : Byte), (0 : Byte)] = .ok false ∧
    fromBytes .bool ([] : List Byte) = .panicked :=
  ⟨rfl, rfl, rfl⟩

/-- C4 (amended): every supported type except `()` and `bool` fails
with `InvalidSize` on input whose length differs from
`serialized_size()`; `()::from_bytes` accepts input of any length;
`bool::from_bytes` inspects only `bytes[0]` — it panics on empty input
and otherwise decides by the first byte alone, regardless of length. -/
theorem C4_from_bytes_length_check :
    (∀ (t : SType) (b : List Byte), t ≠ .unit → t ≠ .bool →
      b.length ≠ t.serializedSize → fromBytes t b = .err .InvalidSize) ∧
    (∀ b : List Byte, fromBytes .unit b = .ok ()) ∧
    (∀ (b : Byte) (rest : List Byte),
      fromBytes .bool (b :: rest) =
        (if b.val = 0 then .ok false
         else if b.val = 1 then .ok true
         else .err .InvalidValue)) ∧
    fromBytes .bool ([] : List Byte) = .panicked := by
  refine ⟨?_, fun b => rfl, fun b rest => rfl, rfl⟩
  intro t b hu hb hlen
  cases t with
  | unit => exact absurd rfl hu
  | bool => exact absurd rfl hb
  | pair h t =>
    rw [fromBytes,
      if_neg (show ¬b.length = h.serializedSize + t.serializedSize from hlen)]
  | _ =>
    rw [fromBytes]
    unfold fixedFromBytes
    exact dif_neg hlen

/-- Witness for `C4_from_bytes_length_check` at `u32` with a 1-byte
input. -/
theorem C4_from_bytes_length_check_witness :
    SType.u32 ≠ SType.unit ∧ SType.u32 ≠ SType.bool ∧
    ([(0 : Byte)] : List Byte).length ≠ SType.u32.serializedSize ∧
    fromBytes .u32 [(0 : Byte)] = .err .InvalidSize :=
  ⟨by decide, by decide, by decide,
    C4_from_bytes_length_check.1 .u32 [(0 : Byte)] (by decide) (by decide)
      (by decide)⟩

/-- Witness for `calculate_block_page_layout_spec` at entry size 13:
the layout exists, its `max_values` is the greatest fitting `N`, and it
evaluates to 309 (bitmap arrays of 39 bytes each, values from byte
78). -/
theorem calculate_block_page_layout_spec_witness :
    ((13 : Nat) ≠ 0 ∧ 1 ≤ 309 ∧ layoutFits 13 309) ∧
    (∃ L, calculate_block_page_layout 13 = .ok L ∧ 1 ≤ L.max_values ∧
      layoutFits 13 L.max_values ∧ ∀ N, layoutFits 13 N → N ≤ L.max_values) ∧
    calculate_block_page_layout 13 =
      .ok { occupancy_array_start := 0, readability_array_start := 39,
            value_array_start := 78, max_values := 309 } :=
  ⟨⟨by decide, by decide, by decide⟩,
    (calculate_block_page_layout_spec 13).1 (by decide)
      ⟨309, by decide, by decide⟩,
    rfl⟩

/-! ## Clock replacer (`src/dbms/buffer/replacer/clock_replacer.rs`) -/

inductive BufferPoolReplacerError
  | FrameOutOfRange
  deriving DecidableEq, Repr

inductive ClockStatus
  | Empty
  | Untouched
  | Accessed
  deriving DecidableEq, Repr

structure ClockReplacer where
  clock_hand : Nat
  page_status : List ClockStatus
  deriving DecidableEq, Repr

/-- `ClockReplacer::new(size)`: all slots empty, hand at 0. -/
def ClockReplacer.new (size : Nat) : ClockReplacer :=
  ⟨0, List.replicate size .Empty⟩

def ClockReplacer.maxSize (r : ClockReplacer) : Nat := r.page_status.length

/-- `ClockReplacer::size()`: the number of non-`Empty` slots (the Rust
method always returns `Ok`, so the error wrapper is dropped). -/
def ClockReplacer.size (r : ClockReplacer) : Nat :=
  (r.page_status.map fun s => match s with | .Empty => 0 | _ => 1).sum

/-- `ClockReplacer::pin(frame_id)`: validate the range, then empty the
slot. -/
def ClockReplacer.pin (r : ClockReplacer) (frame_id : Nat) :
    Except BufferPoolReplacerError ClockReplacer :=
  if frame_id ≥ r.maxSize then .error .FrameOutOfRange
  else .ok ⟨r.clock_hand, r.page_status.set frame_id .Empty⟩

/-- `ClockReplacer::unpin(frame_id)`: validate the range, then mark the
slot `Accessed`. -/
def ClockReplacer.unpin (r : ClockReplacer) (frame_id : Nat) :
    Except BufferPoolReplacerError ClockReplacer :=
  if frame_id ≥ r.maxSize then .error .FrameOutOfRange
  else .ok ⟨r.clock_hand, r.page_status.set frame_id .Accessed⟩

/-- The `while victim.is_none()` scan of `ClockReplacer::victim`: skip
`Empty`, demote `Accessed` to `Untouched`, stop on `Untouched`
(advancing the hand once more, as the Rust loop does before exiting).
The Rust loop has no fuel; `victimLoop_some_of_size_pos` below shows
fuel `2·len + 1` always suffices when some slot is non-empty, so the
fuelled function agrees with the loop on every reachable input. -/
def victimLoop (status : List ClockStatus) (hand : Nat) :
    Nat → Option Nat × List ClockStatus × Nat
  | 0 => (none, status, hand)
  | fuel + 1 =>
    match status.getD hand .Empty with
    | .Empty => victimLoop status ((hand + 1) % status.length) fuel
    | .Untouched => (some hand, status, (hand + 1) % status.length)
    | .Accessed =>
      victimLoop (status.set hand .Untouched) ((hand + 1) % status.length) fuel

/-- `ClockReplacer::victim()`: `None` when `size() = 0`, otherwise scan
from the clock hand and empty the chosen slot. -/
def ClockReplacer.victim (r : ClockReplacer) :
    Except BufferPoolReplacerError (Option Nat × ClockReplacer) :=
  if r.size = 0 then .ok (none, r)
  else
    match victimLoop r.page_status r.clock_hand (2 * r.page_status.length + 1) with
    | (some idx, status, hand) => .ok (some idx, ⟨hand, status.set idx .Empty⟩)
    | (none, status, hand) => .ok (none, ⟨hand, status⟩)

theorem victimLoop_some_of_untouched
    (fuel : Nat) :
    ∀ (status : List ClockStatus) (hand : Nat), hand < status.length →
      (∃ i, i < fuel ∧
        status.getD ((hand + i) % status.length) .Empty = .Untouched) →
      (victimLoop status hand fuel).1.isSome := by
  induction fuel with
  | zero => intro status hand _ ⟨i, hi, _⟩; omega
  | succ fuel ih =>
    intro status hand hh ⟨i, hi, hU⟩
    have hn : 0 < status.length := Nat.lt_of_le_of_lt (Nat.zero_le _) hh
    rw [victimLoop]
    rcases hcase : status.getD hand .Empty with _ | _ | _
    · -- Empty slot: skip; the witness cannot be i = 0.
      have hi0 : i ≠ 0 := by
        intro h
        rw [h, Nat.add_zero, Nat.mod_eq_of_lt hh] at hU
        rw [hcase] at hU
        exact ClockStatus.noConfusion hU
      apply ih status ((hand + 1) % status.length) (Nat.mod_lt _ hn)
      refine ⟨i - 1, by omega, ?_⟩
      have : ((hand + 1) % status.length + (i - 1)) % status.length =
          (hand + i) % status.length := by
        rw [Nat.mod_add_mod]
        congr 1
        omega
      rw [this]
      exact hU
    · simp
    · -- Accessed: demote to Untouched and continue.
      have hi0 : i ≠ 0 := by
        intro h
        rw [h, Nat.add_zero, Nat.mod_eq_of_lt hh] at hU
        rw [hcase] at hU
        exact ClockStatus.noConfusion hU
      apply ih (status.set hand .Untouched) ((hand + 1) % status.length)
        (by rw [List.length_set]; exact Nat.mod_lt _ hn)
      have hlen : (status.set hand .Untouched).length = status.length :=
        List.length_set status hand .Untouched
      refine ⟨i - 1, by omega, ?_⟩
      rw [hlen]
      have hpos : ((hand + 1) % status.length + (i - 1)) % status.length =
          (hand + i) % status.length := by
        rw [Nat.mod_add_mod]
        congr 1
        omega
      rw [hpos]
      by_cases heq : (hand + i) % status.length = hand
      · rw [heq]
        rw [List.getD_eq_getElem _ _ (by rw [hlen]; exact hh)]
        simp [List.getElem_set]
      · rw [List.getD_eq_getElem _ _
            (by rw [hlen]; exact Nat.mod_lt _ hn)]
        rw [List.getElem_set_ne (by omega)]
        rw [← List.getD_eq_getElem _ _ (Nat.mod_lt _ hn)]
        exact hU

theorem victimLoop_some_of_nonempty
    (j : Nat) :
    ∀ (fuel : Nat) (status : List ClockStatus) (hand : Nat),
      hand < status.length →
      status.getD ((hand + j) % status.length) .Empty ≠ .Empty →
      j < status.length →
      j + status.length + 1 ≤ fuel →
      (victimLoop status hand fuel).1.isSome := by
  induction j with
  | zero =>
    intro fuel status hand hh hne hj hfuel
    have hn : 0 < status.length := hj
    obtain ⟨fuel, rfl⟩ : ∃ f, fuel = f + 1 :=
      ⟨fuel - 1, by omega⟩
    rw [victimLoop]
    rw [Nat.add_zero, Nat.mod_eq_of_lt hh] at hne
    rcases hcase : status.getD hand .Empty with _ | _ | _
    · exact absurd hcase hne
    · simp
    · -- Accessed at the hand: after demotion, the scan finds this slot
      -- (now Untouched) again after a full cycle.
      apply victimLoop_some_of_untouched fuel
        (status.set hand .Untouched) ((hand + 1) % status.length)
        (by rw [List.length_set]; exact Nat.mod_lt _ hn)
      have hlen : (status.set hand .Untouched).length = status.length :=
        List.length_set status hand .Untouched
      refine ⟨status.length - 1, by omega, ?_⟩
      rw [hlen]
      have hpos : ((hand + 1) % status.length + (status.length - 1)) %
          status.length = hand := by
        rw [Nat.mod_add_mod]
        have h2 : hand + 1 + (status.length - 1) = hand + status.length := by
          omega
        rw [h2, Nat.add_mod_right, Nat.mod_eq_of_lt hh]
      rw [hpos]
      rw [List.getD_eq_getElem _ _ (by rw [hlen]; exact hh)]
      simp [List.getElem_set]
  | succ j ih =>
    intro fuel status hand hh hne hj hfuel
    have hn : 0 < status.length := Nat.lt_of_le_of_lt (Nat.zero_le _) hh
    obtain ⟨fuel, rfl⟩ : ∃ f, fuel = f + 1 :=
      ⟨fuel - 1, by omega⟩
    rw [victimLoop]
    rcases hcase : status.getD hand .Empty with _ | _ | _
    · -- Empty at the hand: the witness stays j steps ahead.
      apply ih fuel status ((hand + 1) % status.length) (Nat.mod_lt _ hn) ?_
        (by omega) (by omega)
      have hpos : ((hand + 1) % status.length + j) % status.length =
          (hand + (j + 1)) % status.length := by
        rw [Nat.mod_add_mod]
        congr 1
        omega
      rw [hpos]
      exact hne
    · simp
    · -- Accessed at the hand: demotion produces an Untouched slot one
      -- full cycle ahead of the new hand.
      apply victimLoop_some_of_untouched fuel
        (status.set hand .Untouched) ((hand + 1) % status.length)
        (by rw [List.length_set]; exact Nat.mod_lt _ hn)
      have hlen : (status.set hand .Untouched).length = status.length :=
        List.length_set status hand .Untouched
      refine ⟨status.length - 1, by omega, ?_⟩
      rw [hlen]
      have hpos : ((hand + 1) % status.length + (status.length - 1)) %
          status.length = hand := by
        rw [Nat.mod_add_mod]
        have h2 : hand + 1 + (status.length - 1) = hand + status.length := by
          omega
        rw [h2, Nat.add_mod_right, Nat.mod_eq_of_lt hh]
      rw [hpos]
      rw [List.getD_eq_getElem _ _ (by rw [hlen]; exact hh)]
      simp [List.getElem_set]

theorem size_eq_zero_iff (r : ClockReplacer) :
    r.size = 0 ↔ ∀ s ∈ r.page_status, s = .Empty := by
  unfold ClockReplacer.size
  rw [List.sum_eq_zero_iff]
  constructor
  · intro h s hs
    have := h _ (List.mem_map_of_mem _ hs)
    rcases s with _ | _ | _ <;> simp_all
  · intro h x hx
    rw [List.mem_map] at hx
    obtain ⟨s, hs, rfl⟩ := hx
    rw [h s hs]

/-- With a slot that is not `Empty`, the fuelled scan finds a victim
within `2·len + 1` steps. -/
theorem victimLoop_some_of_size_pos (r : ClockReplacer)
    (hh : r.clock_hand < r.page_status.length) (hs : r.size ≠ 0) :
    (victimLoop r.page_status r.clock_hand
      (2 * r.page_status.length + 1)).1.isSome := by
  have hn : 0 < r.page_status.length := Nat.lt_of_le_of_lt (Nat.zero_le _) hh
  obtain ⟨p, hp, hpne⟩ : ∃ p, p < r.page_status.length ∧
      r.page_status.getD p .Empty ≠ .Empty := by
    by_contra hall
    push_neg at hall
    apply hs
    rw [size_eq_zero_iff]
    intro s hs'
    obtain ⟨p, hp, rfl⟩ := List.mem_iff_getElem.mp hs'
    have := hall p hp
    rwa [List.getD_eq_getElem _ _ hp] at this
  set i := (p + r.page_status.length - r.clock_hand) % r.page_status.length
    with hi
  have hpos : (r.clock_hand + i) % r.page_status.length = p := by
    rw [hi, Nat.add_mod_mod]
    have h2 : r.clock_hand + (p + r.page_status.length - r.clock_hand) =
        p + r.page_status.length := by omega
    rw [h2, Nat.add_mod_right, Nat.mod_eq_of_lt hp]
  have hilt : i < r.page_status.length := Nat.mod_lt _ hn
  rcases hcase : r.page_status.getD p .Empty with _ | _ | _
  · exact absurd hcase hpne
  · exact victimLoop_some_of_untouched _ _ _ hh
      ⟨i, by omega, by rw [hpos]; exact hcase⟩
  · exact victimLoop_some_of_nonempty i _ _ _ hh
      (by rw [hpos]; exact hpne) hilt (by omega)

/-- C7: `victim()` returns `None` exactly when `size() = 0` (for any
replacer whose clock hand is in range, as every reachable replacer
state has); and on the concrete scenario S1 — states
`[Accessed, Accessed, Accessed, Empty]` with the hand at 0 — `victim()`
returns `Some(0)` leaving `[Empty, Untouched, Untouched, Empty]`, and
the next `victim()` returns `Some(1)` leaving
`[Empty, Empty, Untouched, Empty]`. -/
theorem C7_clock_replacer_victim :
    (∀ r : ClockReplacer, r.clock_hand < r.maxSize →
      ((∃ rr, r.victim = .ok (none, rr)) ↔ r.size = 0)) ∧
    ClockReplacer.victim ⟨0, [.Accessed, .Accessed, .Accessed, .Empty]⟩ =
      .ok (some 0, ⟨1, [.Empty, .Untouched, .Untouched, .Empty]⟩) ∧
    ClockReplacer.victim ⟨1, [.Empty, .Untouched, .Untouched, .Empty]⟩ =
      .ok (some 1, ⟨2, [.Empty, .Empty, .Untouched, .Empty]⟩) := by
  refine ⟨?_, rfl, rfl⟩
  intro r hh
  constructor
  · intro ⟨rr, hrr⟩
    by_contra hs
    have hsome := victimLoop_some_of_size_pos r hh hs
    unfold ClockReplacer.victim at hrr
    rw [if_neg hs] at hrr
    rcases hloop : victimLoop r.page_status r.clock_hand
        (2 * r.page_status.length + 1) with ⟨ov, status, hand⟩
    rw [hloop] at hrr hsome
    rcases ov with _ | idx
    · simp at hsome
    · simp at hrr
  · intro hs
    exact ⟨r, by unfold ClockReplacer.victim; rw [if_pos hs]⟩

/-- Witness for `C7_clock_replacer_victim` at a one-slot replacer with
the hand in range. -/
theorem C7_clock_replacer_victim_witness :
    (ClockReplacer.mk 0 [.Empty]).clock_hand <
        (ClockReplacer.mk 0 [.Empty]).maxSize ∧
    ((∃ rr, (ClockReplacer.mk 0 [.Empty]).victim = .ok (none, rr)) ↔
      (ClockReplacer.mk 0 [.Empty]).size = 0) :=
  ⟨by decide, C7_clock_replacer_victim.1 ⟨0, [.Empty]⟩ (by decide)⟩

/-- C10: on a hash table header page and a header-extension page,
setting a block page id to `Some(u32::MAX)` and reading it back yields
`None`, not `Some(u32::MAX)`: the sentinel encoding aliases "no page",
so the id `u32::MAX` cannot be stored faithfully. -/
theorem C10_set_max_block_page_id_reads_none :
    ∀ (page : PageBytes) (position : Nat),
      headerGetBlockPageId
          (headerSetBlockPageId page position (some NULL_PAGE_ID)) position
        = none ∧
      extensionGetBlockPageId
          (extensionSetBlockPageId page position (some NULL_PAGE_ID)) position
        = none := by
  intro page position
  constructor
  · unfold headerGetBlockPageId headerSetBlockPageId
    rw [readSingle_writeSingle _ _ _ NULL_PAGE_ID_lt, if_pos rfl]
  · unfold extensionGetBlockPageId extensionSetBlockPageId
    rw [readSingle_writeSingle _ _ _ NULL_PAGE_ID_lt, if_pos rfl]

/-! ## Buffer pool manager
(`src/dbms/buffer/pool_manager/buffer_pool_manager.rs`, with the
in-memory disk manager of `src/dbms/storage/disk/testing.rs`)

Pages are byte sequences; the buffer pool logic never inspects them. -/

def PageData : Type := List Nat

instance : DecidableEq PageData := inferInstanceAs (DecidableEq (List Nat))

instance : Repr PageData := inferInstanceAs (Repr (List Nat))

def zeroPageData : PageData := List.replicate PAGE_SIZE 0

/-- Modelled from the spec: the `Page` type the buffer pool manager
operates on (page id, pin count, dirty flag and data behind the frame
latch) is not among the source files — only the older revision in
`page_type.rs` is — so its operations follow spec §4.2: pin count
saturates at 0 on decrease; `clear()` gives pin 0, clean, zero bytes,
no id; `overwrite(id, bytes)` gives pin 0, clean, the new bytes and
id.  (`page_type.rs`'s `overwrite` agrees: it also resets the pin
count to 0 and the dirty flag to false.) -/
structure Frame where
  page_id : Option Nat
  pin_count : Nat
  is_dirty : Bool
  data : PageData
  deriving DecidableEq, Repr

def Frame.new : Frame := ⟨none, 0, false, zeroPageData⟩

def Frame.increasePinCount (f : Frame) : Frame :=
  { f with pin_count := f.pin_count + 1 }

/-- Decrease the pin count, saturating at 0 (spec §4.2). -/
def Frame.decreasePinCount (f : Frame) : Frame :=
  { f with pin_count := f.pin_count - 1 }

def Frame.setDirty (f : Frame) : Frame := { f with is_dirty := true }

def Frame.setClean (f : Frame) : Frame := { f with is_dirty := false }

def Frame.clear (_f : Frame) : Frame := ⟨none, 0, false, zeroPageData⟩

def Frame.overwrite (id : Option Nat) (d : PageData) : Frame :=
  ⟨id, 0, false, d⟩

/-- Association-list lookup, mirroring `HashMap::get`. -/
def lookupA {α : Type} : List (Nat × α) → Nat → Option α
  | [], _ => none
  | (k, v) :: rest, key => if k = key then some v else lookupA rest key

/-- Association-list insert, mirroring `HashMap::insert` (replace the
existing binding or append a new one). -/
def insertA {α : Type} : List (Nat × α) → Nat → α → List (Nat × α)
  | [], key, value => [(key, value)]
  | (k, v) :: rest, key, value =>
    if k = key then (key, value) :: rest else (k, v) :: insertA rest key value

/-- Association-list removal, mirroring `HashMap::remove`. -/
def removeA {α : Type} : List (Nat × α) → Nat → List (Nat × α)
  | [], _ => []
  | (k, v) :: rest, key =>
    if k = key then rest else (k, v) :: removeA rest key

/-- `Vec::pop`: remove and return the last element. -/
def popLast (l : List Nat) : Option (Nat × List Nat) :=
  match l.getLast? with
  | none => none
  | some x => some (x, l.dropLast)

/-- Disk manager errors as in the spec's §6.1 contract (the trait file
in the tree types them away as `()`; the in-memory implementation
produces `PageNotFound`). -/
inductive DiskManagerError
  | PageNotFound
  | PageIdOverflow
  deriving DecidableEq, Repr

/-- `InMemoryDiskManager` from `disk/testing.rs`: a page map plus a
monotonically increasing next page id. -/
structure InMemoryDiskManager where
  pages : List (Nat × PageData)
  next_page_id : Nat
  deriving DecidableEq, Repr

def InMemoryDiskManager.new : InMemoryDiskManager := ⟨[], 0⟩

/-- `write_page`: fails with `PageNotFound` unless the page was
allocated. -/
def InMemoryDiskManager.writePage (d : InMemoryDiskManager) (page_id : Nat)
    (data : PageData) : Except DiskManagerError InMemoryDiskManager :=
  if (lookupA d.pages page_id).isNone then .error .PageNotFound
  else .ok { d with pages := insertA d.pages page_id data }

/-- `read_page`: the stored bytes, or `PageNotFound`. -/
def InMemoryDiskManager.readPage (d : InMemoryDiskManager) (page_id : Nat) :
    Except DiskManagerError PageData :=
  match lookupA d.pages page_id with
  | some data => .ok data
  | none => .error .PageNotFound

/-- `allocate_page`: hand out `next_page_id`, zero its storage, bump
the counter. -/
def InMemoryDiskManager.allocatePage (d : InMemoryDiskManager) :
    Nat × InMemoryDiskManager :=
  (d.next_page_id,
    ⟨insertA d.pages d.next_page_id zeroPageData, d.next_page_id + 1⟩)

/-- `deallocate_page`: drop the page; ids are never reused. -/
def InMemoryDiskManager.deallocatePage (d : InMemoryDiskManager)
    (page_id : Nat) : InMemoryDiskManager :=
  { d with pages := removeA d.pages page_id }

inductive BufferPoolManagerError
  | NoFrameAvailable
  | PageNotInPool
  | PageInUse
  | ReplacerError (e : BufferPoolReplacerError)
  | PageError
  | DiskManagerError (e : DiskManagerError)
  deriving DecidableEq, Repr

/-- Result of a buffer pool operation: success, a returned error, or a
Rust panic (an `unwrap()` of an `Err`, as in `fetch_page_frame`). -/
inductive BPMOutcome (α : Type)
  | ok (a : α)
  | err (e : BufferPoolManagerError)
  | panicked (e : BufferPoolManagerError)
  deriving DecidableEq

structure BufferPoolManager where
  replacer : ClockReplacer
  disk_manager : InMemoryDiskManager
  page_table : List (Nat × Nat)
  free_frames : List Nat
  pages : List Frame
  deriving DecidableEq, Repr

/-- `BufferPoolManager::new(pool_size, ...)` with a fresh clock
replacer and in-memory disk manager (`create_testing_pool_manager`):
all frames free (`(0..pool_size).collect()`), all pages
uninitialized. -/
def BufferPoolManager.new (pool_size : Nat) : BufferPoolManager :=
  ⟨ClockReplacer.new pool_size, InMemoryDiskManager.new, [],
    List.range pool_size, List.replicate pool_size Frame.new⟩

/-- `get_freeable_frame_id`: pop the free list, else ask the replacer
for a victim, else `NoFrameAvailable`. -/
def BufferPoolManager.getFreeableFrameId (s : BufferPoolManager) :
    Except BufferPoolManagerError (Nat × BufferPoolManager) :=
  match popLast s.free_frames with
  | some (f, rest) => .ok (f, { s with free_frames := rest })
  | none =>
    match s.replacer.victim with
    | .error e => .error (.ReplacerError e)
    | .ok (some frame, r) => .ok (frame, { s with replacer := r })
    | .ok (none, _r) => .error .NoFrameAvailable

/-- The private `write_page` helper: write the frame's page to disk
(no-op `Ok` when the frame holds no page) and mark the frame clean. -/
def BufferPoolManager.writePageHelper (s : BufferPoolManager)
    (frame_id : Nat) : BPMOutcome Unit × BufferPoolManager :=
  match (s.pages.getD frame_id Frame.new).page_id with
  | none => (.ok (), s)
  | some pid =>
    match s.disk_manager.writePage pid (s.pages.getD frame_id Frame.new).data with
    | .error e => (.err (.DiskManagerError e), s)
    | .ok d =>
      (.ok (),
        { s with
            disk_manager := d
            pages := s.pages.set frame_id
              ((s.pages.getD frame_id Frame.new).setClean) })

/-- `write_if_dirty`. -/
def BufferPoolManager.writeIfDirty (s : BufferPoolManager) (frame_id : Nat) :
    BPMOutcome Unit × BufferPoolManager :=
  if (s.pages.getD frame_id Frame.new).is_dirty then s.writePageHelper frame_id
  else (.ok (), s)

/-- First half of `swap_frame`: if the frame holds an old page, flush
it if dirty and remove it from the page table. -/
def BufferPoolManager.swapFrameOld (s : BufferPoolManager) (frame_id : Nat) :
    BPMOutcome Unit × BufferPoolManager :=
  match (s.pages.getD frame_id Frame.new).page_id with
  | some old_page_id =>
    match s.writeIfDirty frame_id with
    | (.ok _, s1) =>
      (BPMOutcome.ok (),
        { s1 with page_table := removeA s1.page_table old_page_id })
    | (o, s1) => (o, s1)
  | none => (.ok (), s)

/-- `swap_frame`: flush the old page if dirty and unmap it
(`swapFrameOld`), map the new page id to the frame, and pin the frame
in the replacer. -/
def BufferPoolManager.swapFrame (s : BufferPoolManager)
    (frame_id new_page_id : Nat) : BPMOutcome Unit × BufferPoolManager :=
  match s.swapFrameOld frame_id with
  | (.ok _, s2) =>
    match (ClockReplacer.pin
        { s2 with
            page_table := insertA s2.page_table new_page_id frame_id }.replacer
        frame_id) with
    | .error e =>
      (.err (.ReplacerError e),
        { s2 with page_table := insertA s2.page_table new_page_id frame_id })
    | .ok r =>
      (.ok (),
        { s2 with
            page_table := insertA s2.page_table new_page_id frame_id
            replacer := r })
  | (o, s2) => (o, s2)

/-- `fetch_page_frame`: page-table hit pins the frame (two `unwrap()`s
— modelled as panics if they were to fail); on a miss,
`get_freeable_frame_id(...).unwrap()` PANICS when no frame is
available, then `swap_frame`, a disk read, and `overwrite`. -/
def BufferPoolManager.fetchPageFrame (s : BufferPoolManager) (page_id : Nat) :
    BPMOutcome Nat × BufferPoolManager :=
  match lookupA s.page_table page_id with
  | some frame_id =>
    let s1 :=
      { s with
          pages := s.pages.set frame_id
            ((s.pages.getD frame_id Frame.new).increasePinCount) }
    match s1.replacer.pin frame_id with
    | .error e => (.panicked (.ReplacerError e), s1)
    | .ok r => (.ok frame_id, { s1 with replacer := r })
  | none =>
    match s.getFreeableFrameId with
    | .error e => (.panicked e, s)
    | .ok (new_frame_id, s1) =>
      match s1.swapFrame new_frame_id page_id with
      | (.ok _, s2) =>
        match s2.disk_manager.readPage page_id with
        | .error e => (.err (.DiskManagerError e), s2)
        | .ok data =>
          (.ok new_frame_id,
            { s2 with
                pages := s2.pages.set new_frame_id
                  (Frame.overwrite (some page_id) data) })
      | (.err e, s2) => (.err e, s2)
      | (.panicked e, s2) => (.panicked e, s2)

/-- `fetch_page`: fetch the frame and return it (shared guard). -/
def BufferPoolManager.fetchPage (s : BufferPoolManager) (page_id : Nat) :
    BPMOutcome Nat × BufferPoolManager :=
  s.fetchPageFrame page_id

/-- `fetch_page_writable`: fetch the frame and return it (exclusive
guard). -/
def BufferPoolManager.fetchPageWritable (s : BufferPoolManager)
    (page_id : Nat) : BPMOutcome Nat × BufferPoolManager :=
  s.fetchPageFrame page_id

/-- `new_page`: pre-check that some page has pin count zero (else
`NoFrameAvailable`, before any allocation), then allocate a page id,
take a freeable frame, `swap_frame`, zero the frame, pin it. -/
def BufferPoolManager.newPage (s : BufferPoolManager) :
    BPMOutcome Nat × BufferPoolManager :=
  match s.pages.find? (fun p => p.pin_count == 0) with
  | none => (.err .NoFrameAvailable, s)
  | some _ =>
    match s.disk_manager.allocatePage with
    | (new_page_id, d1) =>
      let s1 := { s with disk_manager := d1 }
      match s1.getFreeableFrameId with
      | .error e => (.err e, s1)
      | .ok (frame_id, s2) =>
        match s2.swapFrame frame_id new_page_id with
        | (.ok _, s3) =>
          let s4 :=
            { s3 with
                pages := s3.pages.set frame_id
                  ((Frame.overwrite (some new_page_id)
                    zeroPageData).increasePinCount) }
          match s4.replacer.pin frame_id with
          | .error e => (.err (.ReplacerError e), s4)
          | .ok r => (.ok new_page_id, { s4 with replacer := r })
        | (.err e, s3) => (.err e, s3)
        | (.panicked e, s3) => (.panicked e, s3)

/-- The frame state after `unpin_page`'s updates: decrease the pin
count (saturating) and set the dirty flag if requested. -/
def unpinnedFrame (p : Frame) (mark_dirty : Bool) : Frame :=
  if mark_dirty then p.decreasePinCount.setDirty else p.decreasePinCount

/-- `unpin_page`: decrease the pin count (saturating), set dirty if
requested, and when the pin count reaches zero return the frame to the
replacer. -/
def BufferPoolManager.unpinPage (s : BufferPoolManager) (page_id : Nat)
    (mark_dirty : Bool) : BPMOutcome Unit × BufferPoolManager :=
  match lookupA s.page_table page_id with
  | some frame_id =>
    if (unpinnedFrame (s.pages.getD frame_id Frame.new) mark_dirty).pin_count
        = 0 then
      match s.replacer.unpin frame_id with
      | .error e =>
        (.err (.ReplacerError e),
          { s with
              pages := s.pages.set frame_id
                (unpinnedFrame (s.pages.getD frame_id Frame.new) mark_dirty) })
      | .ok r =>
        (.ok (),
          { s with
              pages := s.pages.set frame_id
                (unpinnedFrame (s.pages.getD frame_id Frame.new) mark_dirty)
              replacer := r })
    else
      (.ok (),
        { s with
            pages := s.pages.set frame_id
              (unpinnedFrame (s.pages.getD frame_id Frame.new) mark_dirty) })
  | none => (.err .PageNotInPool, s)

/-- `flush_page`. -/
def BufferPoolManager.flushPage (s : BufferPoolManager) (page_id : Nat) :
    BPMOutcome Unit × BufferPoolManager :=
  match lookupA s.page_table page_id with
  | some frame_id => s.writePageHelper frame_id
  | none => (.err .PageNotInPool, s)

/-- `delete_page`: no-op success on a miss; `PageInUse` when pinned;
otherwise flush-if-dirty, unmap, deallocate on disk, clear the frame
and push it on the free list. -/
def BufferPoolManager.deletePage (s : BufferPoolManager) (page_id : Nat) :
    BPMOutcome Unit × BufferPoolManager :=
  match lookupA s.page_table page_id with
  | some frame_id =>
    match (s.pages.getD frame_id Frame.new).pin_count with
    | 0 =>
      match s.writeIfDirty frame_id with
      | (.ok _, s1) =>
        (.ok (),
          { s1 with
              page_table := removeA s1.page_table page_id
              disk_manager := s1.disk_manager.deallocatePage page_id
              pages := s1.pages.set frame_id
                ((s1.pages.getD frame_id Frame.new).clear)
              free_frames := s1.free_frames ++ [frame_id] })
      | (o, s1) => (o, s1)
    | _ + 1 => (.err .PageInUse, s)
  | none => (.ok (), s)

/-- The `for page in pages { write_page(page) }` loop of
`flush_all_pages`, in frame-index order; the first error aborts the
loop. -/
def BufferPoolManager.flushAllLoop (s : BufferPoolManager) :
    List Nat → BPMOutcome Unit × BufferPoolManager
  | [] => (.ok (), s)
  | i :: rest =>
    match s.writePageHelper i with
    | (.ok _, s1) => s1.flushAllLoop rest
    | (o, s1) => (o, s1)

/-- `flush_all_pages`. -/
def BufferPoolManager.flushAllPages (s : BufferPoolManager) :
    BPMOutcome Unit × BufferPoolManager :=
  s.flushAllLoop (List.range s.pages.length)

/-! ### Operation sequences over the buffer pool -/

inductive BPMOp
  | fetchPage (page_id : Nat)
  | fetchPageWritable (page_id : Nat)
  | newPage
  | unpinPage (page_id : Nat) (mark_dirty : Bool)
  | flushPage (page_id : Nat)
  | deletePage (page_id : Nat)
  | flushAllPages

def outcomeUnit {α : Type} : BPMOutcome α → BPMOutcome Unit
  | .ok _ => .ok ()
  | .err e => .err e
  | .panicked e => .panicked e

/-- Apply one public buffer pool operation. -/
def applyOp (s : BufferPoolManager) : BPMOp → BPMOutcome Unit × BufferPoolManager
  | .fetchPage pid =>
    match s.fetchPage pid with
    | (o, s1) => (outcomeUnit o, s1)
  | .fetchPageWritable pid =>
    match s.fetchPageWritable pid with
    | (o, s1) => (outcomeUnit o, s1)
  | .newPage =>
    match s.newPage with
    | (o, s1) => (outcomeUnit o, s1)
  | .unpinPage pid d => s.unpinPage pid d
  | .flushPage pid => s.flushPage pid
  | .deletePage pid => s.deletePage pid
  | .flushAllPages => s.flushAllPages

/-- States reachable from a fresh pool by successful operations. -/
inductive Reachable : BufferPoolManager → Prop
  | init (pool_size : Nat) : Reachable (BufferPoolManager.new pool_size)
  | step {s : BufferPoolManager} (op : BPMOp) (hre : Reachable s)
      (hok : (applyOp s op).1 = .ok ()) : Reachable (applyOp s op).2

/-! ### The replacer membership invariant that actually holds -/

/-- Frame `f` is in the replacer's eligible set (its slot is not
`Empty`). -/
def eligibleFrame (s : BufferPoolManager) (f : Nat) : Prop :=
  s.replacer.page_status.getD f .Empty ≠ .Empty

/-- Every frame in the replacer's eligible set has pin count zero. -/
def pinZeroInv (s : BufferPoolManager) : Prop :=
  ∀ f, eligibleFrame s f → (s.pages.getD f Frame.new).pin_count = 0

theorem getD_set_ne {α : Type} (l : List α) (i j : Nat) (a d : α) (h : i ≠ j) :
    (l.set i a).getD j d = l.getD j d := by
  rw [List.getD_eq_getElem?_getD, List.getD_eq_getElem?_getD,
    List.getElem?_set_ne h]

theorem getD_set_cases {α : Type} (l : List α) (i : Nat) (a d : α) :
    (l.set i a).getD i d = if i < l.length then a else d := by
  split
  · rw [List.getD_eq_getElem?_getD, List.getElem?_set_self ‹_›]
    rfl
  · rw [List.getD_eq_getElem?_getD,
      List.getElem?_eq_none (by rw [List.length_set]; omega)]
    rfl

theorem getD_out_of_range {α : Type} (l : List α) (i : Nat) (d : α)
    (h : l.length ≤ i) : l.getD i d = d := by
  rw [List.getD_eq_getElem?_getD, List.getElem?_eq_none h]
  rfl

/-- Setting a frame through a pin-preserving modification preserves
every frame's pin count as seen through `getD`. -/
theorem pin_getD_set_modify (l : List Frame) (i : Nat) (g : Frame → Frame)
    (hg : (g (l.getD i Frame.new)).pin_count = (l.getD i Frame.new).pin_count)
    (f : Nat) :
    ((l.set i (g (l.getD i Frame.new))).getD f Frame.new).pin_count =
      (l.getD f Frame.new).pin_count := by
  by_cases hif : i = f
  · subst hif
    rw [getD_set_cases]
    split
    · exact hg
    · rw [getD_out_of_range l i Frame.new (by omega)]
  · rw [getD_set_ne _ _ _ _ _ hif]

theorem getD_set_empty_mono (status : List ClockStatus) (i f : Nat)
    (h : (status.set i .Empty).getD f .Empty ≠ .Empty) :
    status.getD f .Empty ≠ .Empty := by
  by_cases hif : i = f
  · subst hif
    rw [getD_set_cases] at h
    split at h <;> exact absurd rfl h
  · rwa [getD_set_ne _ _ _ _ _ hif] at h

theorem victimLoop_status_mono (fuel : Nat) :
    ∀ (status : List ClockStatus) (hand f : Nat),
      (victimLoop status hand fuel).2.1.getD f .Empty ≠ .Empty →
      status.getD f .Empty ≠ .Empty := by
  induction fuel with
  | zero => intro status hand f h; exact h
  | succ fuel ih =>
    intro status hand f h
    rw [victimLoop] at h
    rcases hcase : status.getD hand .Empty with _ | _ | _ <;> rw [hcase] at h
    · exact ih _ _ _ h
    · exact h
    · have h2 := ih _ _ _ h
      by_cases hif : hand = f
      · subst hif
        rw [hcase]
        intro hc
        exact ClockStatus.noConfusion hc
      · rwa [getD_set_ne _ _ _ _ _ hif] at h2

theorem victim_eligible_mono (r : ClockReplacer) (ov : Option Nat)
    (r' : ClockReplacer) (h : r.victim = .ok (ov, r')) (f : Nat)
    (he : r'.page_status.getD f .Empty ≠ .Empty) :
    r.page_status.getD f .Empty ≠ .Empty := by
  unfold ClockReplacer.victim at h
  split at h
  · cases h
    exact he
  · rcases hloop : victimLoop r.page_status r.clock_hand
        (2 * r.page_status.length + 1) with ⟨ov2, status, hand⟩
    rw [hloop] at h
    rcases ov2 with _ | idx
    · cases h
      apply victimLoop_status_mono _ r.page_status r.clock_hand f
      rw [hloop]
      exact he
    · cases h
      apply victimLoop_status_mono _ r.page_status r.clock_hand f
      rw [hloop]
      exact getD_set_empty_mono _ _ _ he

theorem pin_ok_status (r : ClockReplacer) (fid : Nat) (r' : ClockReplacer)
    (h : r.pin fid = .ok r') :
    r'.page_status = r.page_status.set fid .Empty ∧
      fid < r.page_status.length ∧ r'.clock_hand = r.clock_hand := by
  unfold ClockReplacer.pin at h
  split at h
  · cases h
  · cases h
    refine ⟨rfl, ?_, rfl⟩
    rename_i hge
    unfold ClockReplacer.maxSize at hge
    omega

theorem unpin_ok_status (r : ClockReplacer) (fid : Nat) (r' : ClockReplacer)
    (h : r.unpin fid = .ok r') :
    r'.page_status = r.page_status.set fid .Accessed ∧
      fid < r.page_status.length ∧ r'.clock_hand = r.clock_hand := by
  unfold ClockReplacer.unpin at h
  split at h
  · cases h
  · cases h
    refine ⟨rfl, ?_, rfl⟩
    rename_i hge
    unfold ClockReplacer.maxSize at hge
    omega

theorem writePageHelper_state (s : BufferPoolManager) (fid : Nat)
    (o : BPMOutcome Unit) (s' : BufferPoolManager)
    (h : s.writePageHelper fid = (o, s')) :
    s'.replacer = s.replacer ∧ s'.free_frames = s.free_frames ∧
    s'.page_table = s.page_table ∧
    ∀ f, (s'.pages.getD f Frame.new).pin_count =
      (s.pages.getD f Frame.new).pin_count := by
  unfold BufferPoolManager.writePageHelper at h
  split at h
  · cases h
    exact ⟨rfl, rfl, rfl, fun f => rfl⟩
  · split at h
    · cases h
      exact ⟨rfl, rfl, rfl, fun f => rfl⟩
    · cases h
      exact ⟨rfl, rfl, rfl,
        fun f => pin_getD_set_modify s.pages fid Frame.setClean rfl f⟩

theorem writeIfDirty_state (s : BufferPoolManager) (fid : Nat)
    (o : BPMOutcome Unit) (s' : BufferPoolManager)
    (h : s.writeIfDirty fid = (o, s')) :
    s'.replacer = s.replacer ∧ s'.free_frames = s.free_frames ∧
    s'.page_table = s.page_table ∧
    ∀ f, (s'.pages.getD f Frame.new).pin_count =
      (s.pages.getD f Frame.new).pin_count := by
  unfold BufferPoolManager.writeIfDirty at h
  split at h
  · exact writePageHelper_state s fid o s' h
  · cases h
    exact ⟨rfl, rfl, rfl, fun f => rfl⟩

theorem getFreeable_ok (s : BufferPoolManager) (fid : Nat)
    (s' : BufferPoolManager) (h : s.getFreeableFrameId = .ok (fid, s')) :
    s'.pages = s.pages ∧ s'.page_table = s.page_table ∧
    s'.disk_manager = s.disk_manager ∧
    ∀ f, s'.replacer.page_status.getD f .Empty ≠ .Empty →
      s.replacer.page_status.getD f .Empty ≠ .Empty := by
  unfold BufferPoolManager.getFreeableFrameId at h
  split at h
  · cases h
    exact ⟨rfl, rfl, rfl, fun f hf => hf⟩
  · split at h
    · cases h
    · rename_i hvic
      cases h
      exact ⟨rfl, rfl, rfl, fun f hf => victim_eligible_mono _ _ _ hvic f hf⟩
    · cases h

theorem swapFrameOld_ok (s : BufferPoolManager) (fid : Nat)
    (s2 : BufferPoolManager) (h : s.swapFrameOld fid = (.ok (), s2)) :
    s2.replacer = s.replacer ∧ s2.free_frames = s.free_frames ∧
    ∀ f, (s2.pages.getD f Frame.new).pin_count =
      (s.pages.getD f Frame.new).pin_count := by
  unfold BufferPoolManager.swapFrameOld at h
  split at h
  · rcases hwd : s.writeIfDirty fid with ⟨o1, s1⟩
    rw [hwd] at h
    have hstate := writeIfDirty_state s fid o1 s1 hwd
    rcases o1 with _ | e | e
    · cases h
      exact ⟨hstate.1, hstate.2.1, hstate.2.2.2⟩
    · cases h
    · cases h
  · cases h
    exact ⟨rfl, rfl, fun f => rfl⟩

theorem swapFrame_ok (s : BufferPoolManager) (fid pid : Nat)
    (s' : BufferPoolManager) (h : s.swapFrame fid pid = (.ok (), s')) :
    (∀ f, (s'.pages.getD f Frame.new).pin_count =
      (s.pages.getD f Frame.new).pin_count) ∧
    s'.free_frames = s.free_frames ∧
    (∀ f, s'.replacer.page_status.getD f .Empty ≠ .Empty →
      s.replacer.page_status.getD f .Empty ≠ .Empty) := by
  unfold BufferPoolManager.swapFrame at h
  rcases hold : s.swapFrameOld fid with ⟨o1, s2⟩
  rw [hold] at h
  rcases o1 with a | e | e
  · cases a
    simp only [] at h
    have h2 := swapFrameOld_ok s fid s2 hold
    rcases hpin : ClockReplacer.pin
        { s2 with
            page_table := insertA s2.page_table pid fid }.replacer fid
      with e | r
    · rw [hpin] at h
      simp only [] at h
      cases h
    · rw [hpin] at h
      simp only [] at h
      cases h
      have hstat := pin_ok_status _ _ _ hpin
      refine ⟨fun f => h2.2.2 f, h2.2.1, fun f hf => ?_⟩
      have hf2 : r.page_status.getD f .Empty ≠ .Empty := hf
      rw [hstat.1] at hf2
      have h3 := getD_set_empty_mono _ _ _ hf2
      have h4 : s2.replacer.page_status.getD f .Empty ≠ .Empty := h3
      rwa [h2.1] at h4
  · simp only [] at h
    cases h
  · simp only [] at h
    cases h

theorem inv_of_state_eq (s s' : BufferPoolManager) (hinv : pinZeroInv s)
    (hr : s'.replacer = s.replacer)
    (hp : ∀ f, (s'.pages.getD f Frame.new).pin_count =
      (s.pages.getD f Frame.new).pin_count) : pinZeroInv s' := by
  intro f hf
  rw [hp f]
  apply hinv f
  unfold eligibleFrame at hf ⊢
  rwa [hr] at hf

theorem inv_fetchPageFrame (s : BufferPoolManager) (pid n : Nat)
    (s' : BufferPoolManager) (hinv : pinZeroInv s)
    (h : s.fetchPageFrame pid = (.ok n, s')) : pinZeroInv s' := by
  unfold BufferPoolManager.fetchPageFrame at h
  rcases hlook : lookupA s.page_table pid with _ | fid <;> rw [hlook] at h
  · -- miss
    simp only [] at h
    rcases hfree : s.getFreeableFrameId with e | ⟨nf, s1⟩ <;> rw [hfree] at h
    · simp only [] at h
      cases h
    · simp only [] at h
      rcases hswap : s1.swapFrame nf pid with ⟨o2, s2⟩
      rw [hswap] at h
      rcases o2 with a | e | e
      · cases a
        simp only [] at h
        rcases hread : s2.disk_manager.readPage pid with e | data <;>
          rw [hread] at h <;> simp only [] at h
        · cases h
        · cases h
          have hfree2 := getFreeable_ok s n s1 hfree
          have hswap2 := swapFrame_ok s1 n pid s2 hswap
          intro f hf
          have hf2 : s2.replacer.page_status.getD f .Empty ≠ .Empty := hf
          by_cases hnf : n = f
          · subst hnf
            show ((s2.pages.set n (Frame.overwrite (some pid) data)).getD n
              Frame.new).pin_count = 0
            rw [getD_set_cases]
            split
            · rfl
            · rfl
          · show ((s2.pages.set n (Frame.overwrite (some pid) data)).getD f
              Frame.new).pin_count = 0
            rw [getD_set_ne _ _ _ _ _ hnf, hswap2.1 f]
            have he1 := hswap2.2.2 f hf2
            have he0 := hfree2.2.2.2 f he1
            have h0 := hinv f he0
            rw [hfree2.1]
            exact h0
      · simp only [] at h
        cases h
      · simp only [] at h
        cases h
  · -- hit
    simp only [] at h
    split at h
    · cases h
    · rename_i r hpin
      cases h
      have hstat := pin_ok_status _ _ _ hpin
      intro f hf
      have hf2 : r.page_status.getD f .Empty ≠ .Empty := hf
      have hset : r.page_status =
          s.replacer.page_status.set n .Empty := hstat.1
      by_cases hif : n = f
      · subst hif
        exfalso
        apply hf2
        rw [hset, getD_set_cases]
        have hlt : n < s.replacer.page_status.length := hstat.2.1
        rw [if_pos hlt]
      · rw [hset] at hf2
        have he := getD_set_empty_mono _ _ _ hf2
        have h0 := hinv f he
        show (((s.pages.set n
          ((s.pages.getD n Frame.new).increasePinCount)).getD f
            Frame.new)).pin_count = 0
        rw [getD_set_ne _ _ _ _ _ hif]
        exact h0

theorem inv_newPage (s : BufferPoolManager) (n : Nat) (s' : BufferPoolManager)
    (hinv : pinZeroInv s) (h : s.newPage = (.ok n, s')) : pinZeroInv s' := by
  unfold BufferPoolManager.newPage at h
  rcases hfind : s.pages.find? (fun p => p.pin_count == 0) with _ | p0 <;>
    rw [hfind] at h
  · simp only [] at h
    cases h
  · simp only [InMemoryDiskManager.allocatePage] at h
    rcases hfree : BufferPoolManager.getFreeableFrameId
        { s with
            disk_manager :=
              ⟨insertA s.disk_manager.pages s.disk_manager.next_page_id
                zeroPageData, s.disk_manager.next_page_id + 1⟩ }
      with e | ⟨fid, s2⟩ <;> rw [hfree] at h <;> simp only [] at h
    · cases h
    · rcases hswap : s2.swapFrame fid s.disk_manager.next_page_id with ⟨o2, s3⟩
      rw [hswap] at h
      rcases o2 with a | e | e
      · cases a
        simp only [] at h
        split at h
        · cases h
        · rename_i r hpin
          cases h
          have hstat := pin_ok_status _ _ _ hpin
          have hfree2 := getFreeable_ok _ fid s2 hfree
          have hswap2 := swapFrame_ok s2 fid _ s3 hswap
          intro f hf
          have hf2 : r.page_status.getD f .Empty ≠ .Empty := hf
          have hset : r.page_status =
              s3.replacer.page_status.set fid .Empty := hstat.1
          by_cases hif : fid = f
          · subst hif
            exfalso
            apply hf2
            rw [hset, getD_set_cases]
            have hlt : fid < s3.replacer.page_status.length := hstat.2.1
            rw [if_pos hlt]
          · rw [hset] at hf2
            have he3 := getD_set_empty_mono _ _ _ hf2
            have he2 := hswap2.2.2 f he3
            have he1 := hfree2.2.2.2 f he2
            have h0 := hinv f he1
            show (((s3.pages.set fid
              ((Frame.overwrite (some s.disk_manager.next_page_id)
                zeroPageData).increasePinCount)).getD f
                  Frame.new)).pin_count = 0
            rw [getD_set_ne _ _ _ _ _ hif, hswap2.1 f]
            have hp2 : s2.pages = s.pages := hfree2.1
            rw [hp2]
            exact h0
      · simp only [] at h
        cases h
      · simp only [] at h
        cases h

theorem inv_unpinPage (s : BufferPoolManager) (pid : Nat) (md : Bool)
    (s' : BufferPoolManager) (hinv : pinZeroInv s)
    (h : s.unpinPage pid md = (.ok (), s')) : pinZeroInv s' := by
  unfold BufferPoolManager.unpinPage at h
  rcases hlook : lookupA s.page_table pid with _ | fid <;> rw [hlook] at h
  · simp only [] at h
    cases h
  · simp only [] at h
    by_cases hzero :
        (unpinnedFrame (s.pages.getD fid Frame.new) md).pin_count = 0
    · -- pin count after the decrease is zero: the frame goes back to
      -- the replacer with pin 0.
      rw [if_pos hzero] at h
      rcases hunp : s.replacer.unpin fid with e | r <;> rw [hunp] at h <;>
        simp only [] at h
      · cases h
      · cases h
        have hstat := unpin_ok_status _ _ _ hunp
        intro f hf
        have hf2 : r.page_status.getD f .Empty ≠ .Empty := hf
        have hset : r.page_status =
            s.replacer.page_status.set fid .Accessed := hstat.1
        by_cases hif : fid = f
        · subst hif
          show ((s.pages.set fid
            (unpinnedFrame (s.pages.getD fid Frame.new) md)).getD fid
              Frame.new).pin_count = 0
          rw [getD_set_cases]
          split
          · exact hzero
          · rfl
        · rw [hset] at hf2
          have he : s.replacer.page_status.getD f .Empty ≠ .Empty := by
            rwa [getD_set_ne _ _ _ _ _ hif] at hf2
          have h0 := hinv f he
          show ((s.pages.set fid
            (unpinnedFrame (s.pages.getD fid Frame.new) md)).getD f
              Frame.new).pin_count = 0
          rw [getD_set_ne _ _ _ _ _ hif]
          exact h0
    · -- pin count stays positive: an eligible frame had pin 0 before,
      -- so its decreased pin would be 0, contradiction in that case.
      rw [if_neg hzero] at h
      cases h
      intro f hf
      have hf2 : s.replacer.page_status.getD f .Empty ≠ .Empty := hf
      have h0 := hinv f hf2
      by_cases hif : fid = f
      · subst hif
        exfalso
        apply hzero
        unfold unpinnedFrame Frame.decreasePinCount Frame.setDirty
        split <;> (simp only []; omega)
      · show ((s.pages.set fid
          (unpinnedFrame (s.pages.getD fid Frame.new) md)).getD f
            Frame.new).pin_count = 0
        rw [getD_set_ne _ _ _ _ _ hif]
        exact h0

theorem inv_flushPage (s : BufferPoolManager) (pid : Nat)
    (s' : BufferPoolManager) (hinv : pinZeroInv s)
    (h : s.flushPage pid = (.ok (), s')) : pinZeroInv s' := by
  unfold BufferPoolManager.flushPage at h
  rcases hlook : lookupA s.page_table pid with _ | fid <;> rw [hlook] at h
  · simp only [] at h
    cases h
  · simp only [] at h
    have hstate := writePageHelper_state s fid _ _ h
    exact inv_of_state_eq s s' hinv hstate.1 hstate.2.2.2

theorem inv_deletePage (s : BufferPoolManager) (pid : Nat)
    (s' : BufferPoolManager) (hinv : pinZeroInv s)
    (h : s.deletePage pid = (.ok (), s')) : pinZeroInv s' := by
  unfold BufferPoolManager.deletePage at h
  rcases hlook : lookupA s.page_table pid with _ | fid <;> rw [hlook] at h
  · simp only [] at h
    cases h
    exact hinv
  · simp only [] at h
    rcases hpin : (s.pages.getD fid Frame.new).pin_count with _ | k <;>
      rw [hpin] at h <;> simp only [] at h
    · rcases hwd : s.writeIfDirty fid with ⟨o1, s1⟩
      rw [hwd] at h
      rcases o1 with a | e | e <;> simp only [] at h
      · cases a
        cases h
        have hstate := writeIfDirty_state s fid _ _ hwd
        intro f hf
        have hf2 : s1.replacer.page_status.getD f .Empty ≠ .Empty := hf
        rw [hstate.1] at hf2
        have h0 := hinv f hf2
        by_cases hif : fid = f
        · subst hif
          show ((s1.pages.set fid _).getD fid Frame.new).pin_count = 0
          rw [getD_set_cases]
          split
          · rfl
          · rfl
        · show ((s1.pages.set fid _).getD f Frame.new).pin_count = 0
          rw [getD_set_ne _ _ _ _ _ hif, hstate.2.2.2 f]
          exact h0
      · cases h
      · cases h
    · cases h

theorem inv_flushAllLoop (l : List Nat) :
    ∀ (s : BufferPoolManager) (s' : BufferPoolManager) (o : BPMOutcome Unit),
      pinZeroInv s → s.flushAllLoop l = (o, s') → pinZeroInv s' := by
  induction l with
  | nil =>
    intro s s' o hinv h
    cases h
    exact hinv
  | cons i rest ih =>
    intro s s' o hinv h
    rw [BufferPoolManager.flushAllLoop] at h
    rcases hwp : s.writePageHelper i with ⟨o1, s1⟩
    rw [hwp] at h
    have hstate := writePageHelper_state s i o1 s1 hwp
    have hinv1 : pinZeroInv s1 :=
      inv_of_state_eq s s1 hinv hstate.1 hstate.2.2.2
    rcases o1 with a | e | e <;> simp only [] at h
    · exact ih s1 s' o hinv1 h
    · cases h
      exact hinv1
    · cases h
      exact hinv1

theorem inv_applyOp (s : BufferPoolManager) (op : BPMOp)
    (hinv : pinZeroInv s) (hok : (applyOp s op).1 = .ok ()) :
    pinZeroInv (applyOp s op).2 := by
  cases op with
  | fetchPage pid =>
    simp only [applyOp] at hok ⊢
    rcases hf : s.fetchPage pid with ⟨o, s1⟩
    simp only [hf] at hok ⊢
    rcases o with m | e | e <;> simp only [outcomeUnit] at hok ⊢
    · exact inv_fetchPageFrame s pid m s1 hinv hf
    · cases hok
    · cases hok
  | fetchPageWritable pid =>
    simp only [applyOp] at hok ⊢
    rcases hf : s.fetchPageWritable pid with ⟨o, s1⟩
    simp only [hf] at hok ⊢
    rcases o with m | e | e <;> simp only [outcomeUnit] at hok ⊢
    · exact inv_fetchPageFrame s pid m s1 hinv hf
    · cases hok
    · cases hok
  | newPage =>
    simp only [applyOp] at hok ⊢
    rcases hf : s.newPage with ⟨o, s1⟩
    simp only [hf] at hok ⊢
    rcases o with m | e | e <;> simp only [outcomeUnit] at hok ⊢
    · exact inv_newPage s m s1 hinv hf
    · cases hok
    · cases hok
  | unpinPage pid md =>
    simp only [applyOp] at hok ⊢
    rcases hf : s.unpinPage pid md with ⟨o, s1⟩
    simp only [hf] at hok ⊢
    rcases o with a | e | e
    · cases a
      exact inv_unpinPage s pid md s1 hinv hf
    · cases hok
    · cases hok
  | flushPage pid =>
    simp only [applyOp] at hok ⊢
    rcases hf : s.flushPage pid with ⟨o, s1⟩
    simp only [hf] at hok ⊢
    rcases o with a | e | e
    · cases a
      exact inv_flushPage s pid s1 hinv hf
    · cases hok
    · cases hok
  | deletePage pid =>
    simp only [applyOp] at hok ⊢
    rcases hf : s.deletePage pid with ⟨o, s1⟩
    simp only [hf] at hok ⊢
    rcases o with a | e | e
    · cases a
      exact inv_deletePage s pid s1 hinv hf
    · cases hok
    · cases hok
  | flushAllPages =>
    simp only [applyOp] at hok ⊢
    rcases hf : s.flushAllPages with ⟨o, s1⟩
    simp only [hf] at hok ⊢
    unfold BufferPoolManager.flushAllPages at hf
    exact inv_flushAllLoop _ s s1 o hinv hf

/-- C1 (amended): in every state reachable from a fresh pool by
successful operations, every frame in the replacer's eligible set has
pin count zero (so a pinned frame is never evicted).  The eligible set
is NOT, however, exactly the set of resident pin-zero frames: see
`C1_counterexample`. -/
theorem C1_replacer_eligible_pin_zero :
    ∀ s : BufferPoolManager, Reachable s →
      ∀ f, eligibleFrame s f → (s.pages.getD f Frame.new).pin_count = 0 := by
  intro s hre
  induction hre with
  | init n =>
    intro f hf
    exfalso
    apply hf
    show (List.replicate n ClockStatus.Empty).getD f .Empty = .Empty
    by_cases hf2 : f < n
    · rw [List.getD_eq_getElem _ _ (by simpa using hf2)]
      simp
    · exact getD_out_of_range _ _ _ (by simpa using hf2)
  | step op hre hok ih => exact inv_applyOp _ op ih hok

instance (s : BufferPoolManager) (f : Nat) : Decidable (eligibleFrame s f) :=
  inferInstanceAs (Decidable (_ ≠ _))

set_option maxRecDepth 1500

/-- Witness for `C1_replacer_eligible_pin_zero`: after `new_page` and
`unpin_page` on a one-frame pool, frame 0 is eligible and its pin count
is 0. -/
theorem C1_replacer_eligible_pin_zero_witness :
    eligibleFrame
      (applyOp (applyOp (BufferPoolManager.new 1) .newPage).2
        (.unpinPage 0 false)).2 0 ∧
    ((applyOp (applyOp (BufferPoolManager.new 1) .newPage).2
        (.unpinPage 0 false)).2.pages.getD 0 Frame.new).pin_count = 0 :=
  ⟨by decide,
    C1_replacer_eligible_pin_zero _
      (Reachable.step (.unpinPage 0 false)
        (Reachable.step .newPage (Reachable.init 1) (by decide)) (by decide))
      0 (by decide)⟩

/-- C1 (counterexample): the eligible set is not "exactly the resident
pin-zero frames".  On a one-frame pool, after the successful sequence
`new_page(); unpin_page(0, false); delete_page(0)` the freed frame 0
is STILL in the replacer (`delete_page` never calls `replacer.pin`),
while no page is resident; and after the successful sequence
`new_page(); unpin(0); new_page(); unpin(1); fetch_page(0)` (a miss
that evicts and reloads) page 0 is resident with pin count 0 — the
miss path's `overwrite` resets the pin count — yet frame 0 is NOT in
the eligible set. -/
theorem C1_counterexample :
    ((BufferPoolManager.new 1).newPage.1 = .ok 0 ∧
      ((BufferPoolManager.new 1).newPage.2.unpinPage 0 false).1 = .ok () ∧
      (((BufferPoolManager.new 1).newPage.2.unpinPage 0
        false).2.deletePage 0).1 = .ok () ∧
      (((BufferPoolManager.new 1).newPage.2.unpinPage 0
        false).2.deletePage 0).2.replacer.page_status = [.Accessed] ∧
      (((BufferPoolManager.new 1).newPage.2.unpinPage 0
        false).2.deletePage 0).2.page_table = [] ∧
      (((BufferPoolManager.new 1).newPage.2.unpinPage 0
        false).2.deletePage 0).2.free_frames = [0]) ∧
    (((BufferPoolManager.new 1).newPage.2.unpinPage 0
        false).2.newPage.1 = .ok 1 ∧
      ((((BufferPoolManager.new 1).newPage.2.unpinPage 0
        false).2.newPage.2.unpinPage 1 false).2.fetchPage 0).1 = .ok 0 ∧
      ((((BufferPoolManager.new 1).newPage.2.unpinPage 0
        false).2.newPage.2.unpinPage 1 false).2.fetchPage 0).2.page_table =
          [(0, 0)] ∧
      (((((BufferPoolManager.new 1).newPage.2.unpinPage 0
        false).2.newPage.2.unpinPage 1 false).2.fetchPage 0).2.pages.getD 0
          Frame.new).pin_count = 0 ∧
      ((((BufferPoolManager.new 1).newPage.2.unpinPage 0
        false).2.newPage.2.unpinPage 1 false).2.fetchPage
          0).2.replacer.page_status = [.Empty]) := by
  decide

/-- C2: on a cache miss with an empty free list and a replacer with no
victim (`size() = 0`: every resident page is pinned out of it),
`fetch_page` and `fetch_page_writable` PANIC — `fetch_page_frame`
unwraps the `Err(NoFrameAvailable)` of `get_freeable_frame_id` — and in
particular return no typed error.  The concrete part evaluates the
failing input: a one-frame pool after `new_page()` (page 0 resident and
pinned), fetching absent page 5. -/
theorem C2_fetch_miss_no_victim_panics :
    (∀ (s : BufferPoolManager) (page_id : Nat),
      lookupA s.page_table page_id = none →
      s.free_frames = [] →
      s.replacer.size = 0 →
      s.fetchPage page_id = (.panicked .NoFrameAvailable, s) ∧
      s.fetchPageWritable page_id = (.panicked .NoFrameAvailable, s)) ∧
    (BufferPoolManager.new 1).newPage.2.fetchPage 5 =
      (.panicked .NoFrameAvailable, (BufferPoolManager.new 1).newPage.2) := by
  constructor
  · intro s pid hlook hfree hsize
    have hget : s.getFreeableFrameId = .error .NoFrameAvailable := by
      unfold BufferPoolManager.getFreeableFrameId
      rw [hfree]
      have hvic : s.replacer.victim = .ok (none, s.replacer) := by
        unfold ClockReplacer.victim
        rw [if_pos hsize]
      rw [show popLast ([] : List Nat) = none from rfl, hvic]
    constructor
    · unfold BufferPoolManager.fetchPage BufferPoolManager.fetchPageFrame
      rw [hlook]
      simp only []
      rw [hget]
    · unfold BufferPoolManager.fetchPageWritable
        BufferPoolManager.fetchPageFrame
      rw [hlook]
      simp only []
      rw [hget]
  · rfl

/-- Witness for `C2_fetch_miss_no_victim_panics` at the one-frame pool
with its only page pinned. -/
theorem C2_fetch_miss_no_victim_panics_witness :
    lookupA (BufferPoolManager.new 1).newPage.2.page_table 5 = none ∧
    (BufferPoolManager.new 1).newPage.2.free_frames = [] ∧
    (BufferPoolManager.new 1).newPage.2.replacer.size = 0 ∧
    (BufferPoolManager.new 1).newPage.2.fetchPage 5 =
        (.panicked .NoFrameAvailable, (BufferPoolManager.new 1).newPage.2) ∧
    (BufferPoolManager.new 1).newPage.2.fetchPageWritable 5 =
        (.panicked .NoFrameAvailable, (BufferPoolManager.new 1).newPage.2) :=
  ⟨by decide, by decide, by decide,
    (C2_fetch_miss_no_victim_panics.1 (BufferPoolManager.new 1).newPage.2 5
      (by decide) (by decide) (by decide)).1,
    (C2_fetch_miss_no_victim_panics.1 (BufferPoolManager.new 1).newPage.2 5
      (by decide) (by decide) (by decide)).2⟩

/-- C5: `delete_page(id)` is a no-op success when `id` is absent from
the page table; it fails with `PageInUse` and changes nothing when the
page's pin count is nonzero; and only with pin count zero does it
flush-if-dirty, remove the mapping, deallocate the page on disk, clear
the frame and append it to the free list. -/
theorem C5_delete_page_cases (s : BufferPoolManager) (page_id : Nat) :
    (lookupA s.page_table page_id = none →
      s.deletePage page_id = (.ok (), s)) ∧
    (∀ frame_id, lookupA s.page_table page_id = some frame_id →
      (s.pages.getD frame_id Frame.new).pin_count ≠ 0 →
      s.deletePage page_id = (.err .PageInUse, s)) ∧
    (∀ frame_id s1, lookupA s.page_table page_id = some frame_id →
      (s.pages.getD frame_id Frame.new).pin_count = 0 →
      s.writeIfDirty frame_id = (.ok (), s1) →
      s.deletePage page_id =
        (.ok (),
          { s1 with
              page_table := removeA s1.page_table page_id
              disk_manager := s1.disk_manager.deallocatePage page_id
              pages := s1.pages.set frame_id
                ((s1.pages.getD frame_id Frame.new).clear)
              free_frames := s1.free_frames ++ [frame_id] })) := by
  refine ⟨?_, ?_, ?_⟩
  · intro hlook
    unfold BufferPoolManager.deletePage
    rw [hlook]
  · intro fid hlook hpin
    unfold BufferPoolManager.deletePage
    simp only [hlook]
    rcases hp : (s.pages.getD fid Frame.new).pin_count with _ | k
    · exact absurd hp hpin
    · simp only [hp]
  · intro fid s1 hlook hpin hflush
    unfold BufferPoolManager.deletePage
    simp only [hlook, hpin, hflush]

/-- Witness for `C5_delete_page_cases`: all three cases at concrete
states of a one-frame pool. -/
theorem C5_delete_page_cases_witness :
    (lookupA ((BufferPoolManager.new 1).newPage.2.unpinPage 0
        false).2.page_table 5 = none ∧
      ((BufferPoolManager.new 1).newPage.2.unpinPage 0 false).2.deletePage 5 =
        (.ok (), ((BufferPoolManager.new 1).newPage.2.unpinPage 0
          false).2)) ∧
    (lookupA (BufferPoolManager.new 1).newPage.2.page_table 0 = some 0 ∧
      ((BufferPoolManager.new 1).newPage.2.pages.getD 0
        Frame.new).pin_count ≠ 0 ∧
      (BufferPoolManager.new 1).newPage.2.deletePage 0 =
        (.err .PageInUse, (BufferPoolManager.new 1).newPage.2)) ∧
    (lookupA ((BufferPoolManager.new 1).newPage.2.unpinPage 0
        false).2.page_table 0 = some 0 ∧
      (((BufferPoolManager.new 1).newPage.2.unpinPage 0 false).2.pages.getD 0
        Frame.new).pin_count = 0 ∧
      ((BufferPoolManager.new 1).newPage.2.unpinPage 0
        false).2.writeIfDirty 0 =
        (.ok (), ((BufferPoolManager.new 1).newPage.2.unpinPage 0
          false).2)) :=
  ⟨⟨by decide,
      (C5_delete_page_cases ((BufferPoolManager.new 1).newPage.2.unpinPage 0
        false).2 5).1 (by decide)⟩,
    ⟨by decide, by decide,
      (C5_delete_page_cases (BufferPoolManager.new 1).newPage.2 0).2.1 0
        (by decide) (by decide)⟩,
    ⟨by decide, by decide, rfl⟩⟩


/-- A frame as `new_page` leaves it: holding page `j`, pinned once,
clean, zeroed. -/
def pinnedFrame (j : Nat) : Frame := ⟨some j, 1, false, zeroPageData⟩

/-- `new_page()` iterated `k` times, keeping only the state. -/
def iterNewPage (s : BufferPoolManager) : Nat → BufferPoolManager
  | 0 => s
  | k + 1 => (iterNewPage s k).newPage.2

/-- The invariant after `k` successful `new_page()` calls on a fresh
pool of `n` frames: frames `0..n-k-1` are still free and untouched,
every other frame is pinned, and the disk has handed out exactly the
page ids below `k`. -/
def newPageInv (n k : Nat) (s : BufferPoolManager) : Prop :=
  s.free_frames = List.range (n - k) ∧
  s.replacer.page_status.length = n ∧
  s.disk_manager.next_page_id = k ∧
  ∃ rest, s.pages = List.replicate (n - k) Frame.new ++ rest ∧
    ∀ f ∈ rest, f.pin_count ≠ 0

theorem popLast_range_succ (m : Nat) :
    popLast (List.range (m + 1)) = some (m, List.range m) := by
  rw [popLast, List.range_succ m, List.getLast?_concat]
  simp only []
  rw [List.dropLast_concat]

theorem getD_replicate_append {α : Type} (a d : α) (m : Nat) (l : List α) :
    (List.replicate (m + 1) a ++ l).getD m d = a := by
  induction m with
  | zero => rfl
  | succ m ih =>
    rw [List.replicate_succ, List.cons_append]
    exact ih

theorem set_replicate_append {α : Type} (a b : α) (m : Nat) (l : List α) :
    (List.replicate (m + 1) a ++ l).set m b =
      List.replicate m a ++ b :: l := by
  induction m with
  | zero => rfl
  | succ m ih =>
    show a :: ((List.replicate (m + 1) a ++ l).set m b) =
      a :: (List.replicate m a ++ b :: l)
    rw [ih]

/-- `new_page` on a pool with every frame pinned: the pre-check fails
and the call returns `NoFrameAvailable` with the state — in particular
the disk manager and its `next_page_id` — unchanged: no page id is
allocated or leaked. -/
theorem newPage_all_pinned (s : BufferPoolManager)
    (h : ∀ f ∈ s.pages, f.pin_count ≠ 0) :
    s.newPage = (.err .NoFrameAvailable, s) := by
  have hfind : s.pages.find? (fun p => p.pin_count == 0) = none := by
    rw [List.find?_eq_none]
    intro f hf
    simpa using h f hf
  unfold BufferPoolManager.newPage
  rw [hfind]

/-- One successful `new_page` step under the invariant. -/
theorem newPage_step (n k : Nat) (hk : k < n) (s : BufferPoolManager)
    (hinv : newPageInv n k s) :
    s.newPage.1 = BPMOutcome.ok k ∧ newPageInv n (k + 1) s.newPage.2 := by
  obtain ⟨hfree, hlen, hnext, rest, hpages, hrest⟩ := hinv
  obtain ⟨m, hm⟩ : ∃ m, n - k = m + 1 := ⟨n - k - 1, by omega⟩
  have hmn : m < n := by omega
  rw [hm] at hfree hpages
  have hpages' : s.pages =
      Frame.new :: (List.replicate m Frame.new ++ rest) := by
    rw [hpages, List.replicate_succ, List.cons_append]
  have hfind : s.pages.find? (fun p => p.pin_count == 0) =
      some Frame.new := by
    rw [hpages', List.find?_cons_of_pos _ rfl]
  have hpin : s.replacer.pin m =
      .ok ⟨s.replacer.clock_hand, s.replacer.page_status.set m .Empty⟩ := by
    unfold ClockReplacer.pin ClockReplacer.maxSize
    rw [hlen, if_neg (by omega)]
  have hpin2 : (ClockReplacer.pin
      ⟨s.replacer.clock_hand, s.replacer.page_status.set m .Empty⟩ m) =
      .ok ⟨s.replacer.clock_hand,
        (s.replacer.page_status.set m .Empty).set m .Empty⟩ := by
    unfold ClockReplacer.pin ClockReplacer.maxSize
    simp only []
    rw [List.length_set, hlen, if_neg (by omega)]
  have heq : s.newPage =
      (.ok k,
        ⟨⟨s.replacer.clock_hand,
            (s.replacer.page_status.set m .Empty).set m .Empty⟩,
          ⟨insertA s.disk_manager.pages k zeroPageData, k + 1⟩,
          insertA s.page_table k m,
          List.range m,
          List.replicate m Frame.new ++ pinnedFrame k :: rest⟩) := by
    unfold BufferPoolManager.newPage
    rw [hfind]
    simp only []
    unfold InMemoryDiskManager.allocatePage
    simp only []
    rw [hnext]
    unfold BufferPoolManager.getFreeableFrameId
    simp only []
    rw [hfree, popLast_range_succ]
    simp only []
    unfold BufferPoolManager.swapFrame BufferPoolManager.swapFrameOld
    simp only []
    rw [hpages, getD_replicate_append]
    simp only [Frame.new]
    rw [hpin]
    simp only []
    rw [hpin2]
    simp only []
    rw [set_replicate_append]
    rfl
  refine ⟨by rw [heq], ?_⟩
  rw [heq]
  refine ⟨?_, ?_, rfl, pinnedFrame k :: rest, ?_, ?_⟩
  · show List.range m = List.range (n - (k + 1))
    rw [show n - (k + 1) = m from by omega]
  · show ((s.replacer.page_status.set m .Empty).set m .Empty).length = n
    rw [List.length_set, List.length_set, hlen]
  · show List.replicate m Frame.new ++ pinnedFrame k :: rest =
      List.replicate (n - (k + 1)) Frame.new ++ pinnedFrame k :: rest
    rw [show n - (k + 1) = m from by omega]
  · intro f hf
    rcases List.mem_cons.1 hf with h | h
    · rw [h]; exact Nat.one_ne_zero
    · exact hrest f h

theorem newPageInv_iter (n : Nat) :
    ∀ k, k ≤ n → newPageInv n k (iterNewPage (BufferPoolManager.new n) k) := by
  intro k
  induction k with
  | zero =>
    intro _
    refine ⟨rfl,
      by simp [iterNewPage, BufferPoolManager.new, ClockReplacer.new], rfl,
      [], ?_, fun f hf => absurd hf (List.not_mem_nil f)⟩
    show List.replicate n Frame.new = List.replicate (n - 0) Frame.new ++ []
    rw [List.append_nil, Nat.sub_zero]
  | succ k ih =>
    intro hk
    exact (newPage_step n k (by omega) _ (ih (by omega))).2

/-- C6: `new_page` pre-checks for a pin-count-zero frame and, when
every frame is pinned, returns `NoFrameAvailable` with the whole state
— including the disk manager's `next_page_id` — unchanged, so no page
id is allocated and leaked.  Consequently on a fresh pool of any size
`n` the first `n` calls succeed (returning page ids `0..n-1`) and the
`(n+1)`-th call fails with `NoFrameAvailable`, leaving the state
unchanged. -/
theorem C6_new_page_precheck_and_exhaustion :
    (∀ s : BufferPoolManager, (∀ f ∈ s.pages, f.pin_count ≠ 0) →
      s.newPage = (.err .NoFrameAvailable, s)) ∧
    (∀ n k : Nat, k < n →
      (iterNewPage (BufferPoolManager.new n) k).newPage.1 = .ok k) ∧
    (∀ n : Nat,
      (iterNewPage (BufferPoolManager.new n) n).newPage =
        (.err .NoFrameAvailable, iterNewPage (BufferPoolManager.new n) n)) := by
  refine ⟨newPage_all_pinned, ?_, ?_⟩
  · intro n k hk
    exact (newPage_step n k hk _ (newPageInv_iter n k (Nat.le_of_lt hk))).1
  · intro n
    obtain ⟨_, _, _, rest, hpages, hrest⟩ :=
      newPageInv_iter n n (Nat.le_refl n)
    apply newPage_all_pinned
    intro f hf
    rw [hpages] at hf
    rw [Nat.sub_self] at hf
    exact hrest f hf

/-- Witness for `C6_new_page_precheck_and_exhaustion`: pool sizes 1 and
2 at concrete states. -/
theorem C6_new_page_precheck_and_exhaustion_witness :
    (BufferPoolManager.new 1).newPage.2.newPage =
        (.err .NoFrameAvailable, (BufferPoolManager.new 1).newPage.2) ∧
    (iterNewPage (BufferPoolManager.new 2) 1).newPage.1 = .ok 1 ∧
    (iterNewPage (BufferPoolManager.new 2) 2).newPage =
        (.err .NoFrameAvailable, iterNewPage (BufferPoolManager.new 2) 2) :=
  ⟨C6_new_page_precheck_and_exhaustion.1 _ (by decide),
    C6_new_page_precheck_and_exhaustion.2.1 2 1 (by decide),
    C6_new_page_precheck_and_exhaustion.2.2 2⟩


/-! ## Linear-probing hash table
(`src/dbms/storage/page/hash_table/{table,block,hash_function}.rs`) -/

/-- `ConstHashFunction::hash`: ignores both the key bytes and the table
size, returning `seed % usize::MAX` (`usize::MAX as u64 = 2^64 - 1`). -/
def constHash (seed : Nat) : Nat := seed % (2 ^ 64 - 1)

/-- `pages_required_for_slot`: `slots / page_capacity`, plus one if the
division leaves a remainder. -/
def pagesRequiredForSlot (page_capacity slots : Nat) : Nat :=
  slots / page_capacity + (if slots % page_capacity ≠ 0 then 1 else 0)

/-- One slot of a hash table block page, as `block.rs` lays it out: the
occupancy bit, the readability bit, and the entry's key/value bytes
(carried decoded; `put_slot` writes them with `to_bytes` and the
iterator reads them back with `from_bytes`, which round-trip by
`fromBytes_toBytes`). -/
structure BlockSlot (K V : Type) where
  occupied : Bool
  readable : Bool
  key : K
  value : V
  deriving DecidableEq, Repr

/-- A freshly allocated, zeroed slot: both bits clear; the entry bytes
decode to the zero values `k0`/`v0`. -/
def BlockSlot.empty {K V : Type} (k0 : K) (v0 : V) : BlockSlot K V :=
  ⟨false, false, k0, v0⟩

inductive HashTableBlockError
  | SlotNotReadable
  | SlotOccupied
  deriving DecidableEq, Repr

/-- `EntryIterator::next` at one position: `entry` is `None` when the
slot is not readable, otherwise the decoded pair; `occupied` is the
occupancy bit either way. -/
def slotEntry {K V : Type} (page : List (BlockSlot K V)) (k0 : K) (v0 : V)
    (i : Nat) : Bool × Option (K × V) :=
  let s := page.getD i (BlockSlot.empty k0 v0)
  (s.occupied, if s.readable then some (s.key, s.value) else none)

/-- `iter_entries(from_slot, to_slot)`: the entries at positions
`from_slot, …, max_position - 1`, where `max_position` is `to_slot` or,
when `None`, `num_slots()` (the layout's `max_values`, here `N`).  When
`max_position ≤ from_slot` the iterator yields nothing. -/
def iterEntries {K V : Type} (page : List (BlockSlot K V)) (k0 : K) (v0 : V)
    (N from_slot : Nat) (to_slot : Option Nat) :
    List (Bool × Option (K × V)) :=
  (List.range' from_slot (to_slot.getD N - from_slot)).map
    (slotEntry page k0 v0)

/-- `put_slot`: refuse an occupied slot, else store the entry and set
both bits. -/
def putSlot {K V : Type} (page : List (BlockSlot K V)) (k0 : K) (v0 : V)
    (slot : Nat) (key : K) (value : V) :
    Except HashTableBlockError (List (BlockSlot K V)) :=
  if (page.getD slot (BlockSlot.empty k0 v0)).occupied then
    .error .SlotOccupied
  else .ok (page.set slot ⟨true, true, key, value⟩)

/-- `remove_slot`: clear the readability bit only — the occupancy bit
stays set, leaving a tombstone. -/
def removeSlot {K V : Type} (page : List (BlockSlot K V)) (k0 : K) (v0 : V)
    (slot : Nat) : List (BlockSlot K V) :=
  page.set slot
    { page.getD slot (BlockSlot.empty k0 v0) with readable := false }

/-- The `to_slot` argument of one probe pass: the `match (to_slot,
original block == current block)` of `get_addressed_values`,
`insert_entry` and `delete_entry`. -/
def passEnd (to_slot : Option Nat) (same_block : Bool)
    (orig_slot max_slot : Nat) : Option Nat :=
  match to_slot, same_block with
  | none, true => some orig_slot
  | none, false => none
  | some t, true => some (min t max_slot)
  | some t, false => some t

/-- The probe's moving state: current address, `to_slot` and `wrapped`
flags, as in the three table-scan loops. -/
structure ProbeCursor where
  blk : Nat
  slot : Nat
  to_slot : Option Nat
  wrapped : Bool
  deriving DecidableEq, Repr

/-- The end-of-pass bookkeeping shared by the three loops: advance to
slot 0 of the next block page (modulo `num_block_pages`); after a
wrapped pass stop; on first returning to the original block page set
`to_slot` to the original slot and mark `wrapped`.  Returns the next
cursor and whether `search_done` was set. -/
def ProbeCursor.advance (c : ProbeCursor)
    (num_block_pages orig_blk orig_slot : Nat) : ProbeCursor × Bool :=
  let nblk := (c.blk + 1) % num_block_pages
  if c.wrapped then (⟨nblk, 0, c.to_slot, c.wrapped⟩, true)
  else if nblk = orig_blk then (⟨nblk, 0, some orig_slot, true⟩, false)
  else (⟨nblk, 0, c.to_slot, c.wrapped⟩, false)

/-- The `'entries` scan of `insert_entry` over one pass's entries,
with `i` the absolute slot of the first entry: a duplicate
(key and value both equal) stops the search; otherwise the first
unoccupied slot is the insertion target.  `none` means the pass ended
without a break. -/
inductive InsertScanHit
  | duplicate
  | empty (slot : Nat)
  deriving DecidableEq, Repr

def insertScanAux {K V : Type} [DecidableEq K] [DecidableEq V]
    (key : K) (value : V) :
    List (Bool × Option (K × V)) → Nat → Option InsertScanHit
  | [], _ => none
  | (occ, e) :: rest, i =>
    match e with
    | some (k, v) =>
      if k = key ∧ v = value then some .duplicate
      else if occ then insertScanAux key value rest (i + 1)
      else some (.empty i)
    | none =>
      if occ then insertScanAux key value rest (i + 1)
      else some (.empty i)

/-- The `'entries` scan of `delete_entry`: the absolute slot of the
first readable entry equal to the key/value pair, if any. -/
def deleteScanAux {K V : Type} [DecidableEq K] [DecidableEq V]
    (key : K) (value : V) :
    List (Bool × Option (K × V)) → Nat → Option Nat
  | [], _ => none
  | (_, e) :: rest, i =>
    match e with
    | some (k, v) =>
      if k = key ∧ v = value then some i
      else deleteScanAux key value rest (i + 1)
    | none => deleteScanAux key value rest (i + 1)

/-- The `'entries` scan of `get_addressed_values`: push every readable
entry matching the key (with its address `(block, slot)`); stop when
`max_returned` results are collected, or at the first UNOCCUPIED slot —
an occupied-but-unreadable tombstone does not stop the scan.  Returns
the accumulated results and whether `search_done` was set. -/
def searchScanAux {K V : Type} [DecidableEq K] (key : K)
    (max_returned : Option Nat) (blk : Nat) :
    List (Bool × Option (K × V)) → Nat → List ((Nat × Nat) × V) →
      List ((Nat × Nat) × V) × Bool
  | [], _, acc => (acc, false)
  | (occ, e) :: rest, i, acc =>
    if occ then
      match e with
      | some (k, v) =>
        if k = key then
          let acc1 := acc ++ [((blk, i), v)]
          match max_returned with
          | some mr =>
            if mr ≤ acc1.length then (acc1, true)
            else searchScanAux key max_returned blk rest (i + 1) acc1
          | none => searchScanAux key max_returned blk rest (i + 1) acc1
        else searchScanAux key max_returned blk rest (i + 1) acc
      | none => searchScanAux key max_returned blk rest (i + 1) acc
    else (acc, true)

/-- Outcome of the `insert_entry` probe loop: `dup` (DuplicateEntry),
`inserted` at a block/slot, `exhausted` (the loop ended with neither —
the code then doubles the table and retries), a block error from
`put_slot`, or fuel exhaustion of the model (the real `while` loop;
every pass below runs with ample fuel). -/
inductive InsertLoopResult (K V : Type)
  | dup (blocks : List (List (BlockSlot K V)))
  | inserted (blk slot : Nat) (blocks : List (List (BlockSlot K V)))
  | exhausted (blocks : List (List (BlockSlot K V)))
  | err (e : HashTableBlockError)
  | outOfFuel
  deriving DecidableEq

/-- The `while !search_done` loop of `insert_entry`. -/
def insertLoop {K V : Type} [DecidableEq K] [DecidableEq V] (k0 : K) (v0 : V)
    (key : K) (value : V) (N num_block_pages orig_blk orig_slot max_slot : Nat)
    (blocks : List (List (BlockSlot K V))) :
    ProbeCursor → Nat → InsertLoopResult K V
  | _, 0 => .outOfFuel
  | c, fuel + 1 =>
    let page := blocks.getD c.blk []
    let s := passEnd c.to_slot (orig_blk == c.blk) orig_slot max_slot
    match insertScanAux key value (iterEntries page k0 v0 N c.slot s) c.slot with
    | some .duplicate => .dup blocks
    | some (.empty slot) =>
      match putSlot page k0 v0 slot key value with
      | .error e => .err e
      | .ok page1 => .inserted c.blk slot (blocks.set c.blk page1)
    | none =>
      match c.advance num_block_pages orig_blk orig_slot with
      | (c1, done) =>
        if done then .exhausted blocks
        else insertLoop k0 v0 key value N num_block_pages orig_blk orig_slot
          max_slot blocks c1 fuel

/-- Outcome of the `delete_entry` probe loop. -/
inductive DeleteLoopResult (K V : Type)
  | removed (blk slot : Nat) (blocks : List (List (BlockSlot K V)))
  | notFound (blocks : List (List (BlockSlot K V)))
  | outOfFuel
  deriving DecidableEq

/-- The `while !search_done` loop of `delete_entry`: remove the first
matching entry (`remove_slot`, a tombstone) and stop. -/
def deleteLoop {K V : Type} [DecidableEq K] [DecidableEq V] (k0 : K) (v0 : V)
    (key : K) (value : V) (N num_block_pages orig_blk orig_slot max_slot : Nat)
    (blocks : List (List (BlockSlot K V))) :
    ProbeCursor → Nat → DeleteLoopResult K V
  | _, 0 => .outOfFuel
  | c, fuel + 1 =>
    let page := blocks.getD c.blk []
    let s := passEnd c.to_slot (orig_blk == c.blk) orig_slot max_slot
    match deleteScanAux key value (iterEntries page k0 v0 N c.slot s) c.slot with
    | some slot =>
      .removed c.blk slot (blocks.set c.blk (removeSlot page k0 v0 slot))
    | none =>
      match c.advance num_block_pages orig_blk orig_slot with
      | (c1, done) =>
        if done then .notFound blocks
        else deleteLoop k0 v0 key value N num_block_pages orig_blk orig_slot
          max_slot blocks c1 fuel

/-- The `while !search_done` loop of `get_addressed_values`. -/
def searchLoop {K V : Type} [DecidableEq K] (k0 : K) (v0 : V) (key : K)
    (max_returned : Option Nat)
    (N num_block_pages orig_blk orig_slot max_slot : Nat)
    (blocks : List (List (BlockSlot K V))) :
    ProbeCursor → List ((Nat × Nat) × V) → Nat →
      Option (List ((Nat × Nat) × V))
  | _, _, 0 => none
  | c, acc, fuel + 1 =>
    let page := blocks.getD c.blk []
    let s := passEnd c.to_slot (orig_blk == c.blk) orig_slot max_slot
    match searchScanAux key max_returned c.blk
        (iterEntries page k0 v0 N c.slot s) c.slot acc with
    | (acc1, true) => some acc1
    | (acc1, false) =>
      match c.advance num_block_pages orig_blk orig_slot with
      | (c1, done) =>
        if done then some acc1
        else searchLoop k0 v0 key max_returned N num_block_pages orig_blk
          orig_slot max_slot blocks c1 acc1 fuel

/-- `insert_entry` for a table of `table_size` slots whose key hashes
to `hash`: block size `N` from the layout, addresses `hash / N` /
`hash % N`, the max address from `table_size - 1`, probe from the
original address. -/
def insertEntry {K V : Type} [DecidableEq K] [DecidableEq V] (k0 : K) (v0 : V)
    (key : K) (value : V) (N table_size hash : Nat)
    (blocks : List (List (BlockSlot K V))) (fuel : Nat) :
    InsertLoopResult K V :=
  insertLoop k0 v0 key value N (pagesRequiredForSlot N table_size)
    (hash / N) (hash % N) ((table_size - 1) % N) blocks
    ⟨hash / N, hash % N, none, false⟩ fuel

/-- `delete_entry`, same addressing. -/
def deleteEntry {K V : Type} [DecidableEq K] [DecidableEq V] (k0 : K) (v0 : V)
    (key : K) (value : V) (N table_size hash : Nat)
    (blocks : List (List (BlockSlot K V))) (fuel : Nat) :
    DeleteLoopResult K V :=
  deleteLoop k0 v0 key value N (pagesRequiredForSlot N table_size)
    (hash / N) (hash % N) ((table_size - 1) % N) blocks
    ⟨hash / N, hash % N, none, false⟩ fuel

/-- `get_single_value`: `get_addressed_values` with `max_returned = 1`,
then pop the last result. -/
def getSingleValue {K V : Type} [DecidableEq K] (k0 : K) (v0 : V) (key : K)
    (N table_size hash : Nat) (blocks : List (List (BlockSlot K V)))
    (fuel : Nat) : Option (Option V) :=
  match searchLoop k0 v0 key (some 1) N (pagesRequiredForSlot N table_size)
      (hash / N) (hash % N) ((table_size - 1) % N) blocks
      ⟨hash / N, hash % N, none, false⟩ [] fuel with
  | none => none
  | some results => some ((results.getLast?).map (fun r => r.2))

/-- The block/slot of a successful insert, `none` otherwise. -/
def InsertLoopResult.slotOf {K V : Type} :
    InsertLoopResult K V → Option (Nat × Nat)
  | .inserted blk slot _ => some (blk, slot)
  | _ => none

/-- The blocks after an insert (unchanged unless `inserted`). -/
def InsertLoopResult.blocksOf {K V : Type} :
    InsertLoopResult K V → List (List (BlockSlot K V))
  | .dup b => b
  | .inserted _ _ b => b
  | .exhausted b => b
  | .err _ => []
  | .outOfFuel => []

/-- The block/slot of a successful delete, `none` otherwise. -/
def DeleteLoopResult.slotOf {K V : Type} :
    DeleteLoopResult K V → Option (Nat × Nat)
  | .removed blk slot _ => some (blk, slot)
  | _ => none

/-- The blocks after a delete. -/
def DeleteLoopResult.blocksOf {K V : Type} :
    DeleteLoopResult K V → List (List (BlockSlot K V))
  | .removed _ _ b => b
  | .notFound b => b
  | .outOfFuel => []

/-! ### The S6 scenario: `u32` keys, `f64` values, table size 10,
constant hash 3 -/

/-- Keys of the scenario: `u32` values (bit patterns, as in the
serialization section). -/
def HKey : Type := SType.Val .u32

/-- Values of the scenario: `f64` values (bit patterns). -/
def HVal : Type := SType.Val .f64

instance : DecidableEq HKey := instDecidableEqSTypeVal .u32

instance : DecidableEq HVal := instDecidableEqSTypeVal .f64

/-- `max_values` of the block page layout for the scenario's 12-byte
entries (4-byte key + 8-byte value). -/
def N12 : Nat :=
  match calculate_block_page_layout
      (SType.u32.serializedSize + SType.f64.serializedSize) with
  | .ok l => l.max_values
  | .error _ => 0

def hk0 : HKey := ⟨0, by decide⟩

def hv0 : HVal := ⟨0, by decide⟩

def hkey1 : HKey := ⟨1, by decide⟩

def hkey2 : HKey := ⟨2, by decide⟩

def hkey3 : HKey := ⟨3, by decide⟩

/-- The IEEE-754 bit pattern of `1.0`. -/
def hval1 : HVal := ⟨4607182418800017408, by decide⟩

/-- The IEEE-754 bit pattern of `2.0`. -/
def hval2 : HVal := ⟨4611686018427387904, by decide⟩

/-- The IEEE-754 bit pattern of `3.0`. -/
def hval3 : HVal := ⟨4613937818241073152, by decide⟩

/-- The scenario's single, freshly zeroed block page (table size 10
fits in one block page of `N12 = 334` slots). -/
def s6Blocks0 : List (List (BlockSlot HKey HVal)) :=
  [List.replicate N12 (BlockSlot.empty hk0 hv0)]

/-- The constant hash family's start address for every key. -/
def s6Hash : Nat := constHash 3

def s6Ins1 : InsertLoopResult HKey HVal :=
  insertEntry hk0 hv0 hkey1 hval1 N12 10 s6Hash s6Blocks0 4

def s6Ins2 : InsertLoopResult HKey HVal :=
  insertEntry hk0 hv0 hkey2 hval2 N12 10 s6Hash s6Ins1.blocksOf 4

def s6Ins3 : InsertLoopResult HKey HVal :=
  insertEntry hk0 hv0 hkey3 hval3 N12 10 s6Hash s6Ins2.blocksOf 4

def s6Del : DeleteLoopResult HKey HVal :=
  deleteEntry hk0 hv0 hkey2 hval2 N12 10 s6Hash s6Ins3.blocksOf 4

/-- Slot `i` of the scenario's block page after the given blocks
state. -/
def s6Slot (blocks : List (List (BlockSlot HKey HVal))) (i : Nat) :
    BlockSlot HKey HVal :=
  (blocks.getD 0 []).getD i (BlockSlot.empty hk0 hv0)


/-- C3 (counterexample): the entries do NOT land in successive slots
starting at the start address.  With constant hash 3 the start address
is slot 3, but the first probe pass iterates `iter_entries(3, Some(3))`
— an empty range — so the probe wraps, and the wrapped pass scans slots
`0 .. min(3, 9)`.  The three inserts therefore land at slots 0, 1 and
2, and slot 3 (the start address) is never occupied. -/
theorem C3_counterexample :
    iterEntries (s6Blocks0.getD 0 []) hk0 hv0 N12 3 (some 3) = [] ∧
    s6Ins1.slotOf = some (0, 0) ∧
    s6Ins2.slotOf = some (0, 1) ∧
    s6Ins3.slotOf = some (0, 2) ∧
    (s6Slot s6Ins3.blocksOf 3).occupied = false := by
  decide

/-- C3 (amended): with the constant hash family (start address 3,
table size 10), the inserts `(1, 1.0); (2, 2.0); (3, 3.0)` land in the
successive slots 0, 1, 2 — the wrapped pass's range, not the start
address.  `delete(2, 2.0)` removes the slot-1 entry leaving a tombstone
(occupancy bit still set, readability bit cleared), and `get(3)` still
returns `3.0`: the probe skips the occupied-but-unreadable slot rather
than stopping there. -/
theorem C3_linear_probe_collision :
    (s6Slot s6Ins3.blocksOf 0 = ⟨true, true, hkey1, hval1⟩ ∧
      s6Slot s6Ins3.blocksOf 1 = ⟨true, true, hkey2, hval2⟩ ∧
      s6Slot s6Ins3.blocksOf 2 = ⟨true, true, hkey3, hval3⟩) ∧
    (s6Del.slotOf = some (0, 1) ∧
      (s6Slot s6Del.blocksOf 1).occupied = true ∧
      (s6Slot s6Del.blocksOf 1).readable = false) ∧
    getSingleValue hk0 hv0 hkey3 N12 10 s6Hash s6Del.blocksOf 4 =
      some (some hval3) := by
  decide

end K2db
